import Mathlib

/-!
Shallow embedding of the UGC gameplay-message router
(`Source/GameplayMessageRuntime`), for checking the natural-language
specification against the code.

Two routers are embedded:

* the global router `UGameplayMessageSubsystem`
  (`GameplayMessageSubsystem.h/.cpp`): a map from message struct type to a
  priority-ordered listener list, target-object affinity filtering, and the
  shared `BroadcastResultCache` cancellation/interruption protocol;

* the spatial router `UGameplayWorldMessageSubsystem`
  (`GameplayWorldMessageSubsystem.h/.cpp`): a fixed-size grid index
  (`GRID_SIZE = 1600`), listeners duplicated into every grid cell their
  listening circle overlaps, broadcasts consulting only the cell containing
  the broadcast position plus an exact squared-distance check.

Modelling conventions: `UScriptStruct*` type identities and `UObject*`
target identities are natural numbers; `TWeakObjectPtr` is an `Option`
plus (for the stored struct type of a listener) an explicit validity flag;
`FVector` coordinates are rationals; `FGameplayTag` is a segment list,
with `MatchesTagExact` equality and `MatchesTag` the
is-descendant-of-or-equal relation (listener tag a segment-list prefix of
the broadcast tag), per the documented gameplay-tag contract; listener
callbacks are modelled by the effects they can perform on the router
(nothing, `CancelMessage`, register, unregister, or a nested broadcast),
and `TFunction` equality is the equality of those effect descriptions.
Dispatch functions additionally return the list of handle ids of the
listeners actually invoked, in invocation order, so that temporal claims
about the dispatch loop can be stated.
-/

namespace GameplayMsg

/-- Hierarchical channel tag `A.B.C`, as its list of segments. -/
abbrev Tag := List Nat

/-- Tag equality, the contract of `FGameplayTag::MatchesTagExact`. -/
def matchesTagExact (a b : Tag) : Bool := decide (a = b)

/-- Contract of `a.MatchesTag(b)`: `a` equals `b` or is a descendant of
`b`, i.e. `b` is a segment prefix of `a`. -/
def matchesTag (a b : Tag) : Bool := b.isPrefixOf a

/-- Match rule enum `EGameplayMessageMatch` from `GameplayMessageTypes2.h`. -/
inductive EGameplayMessageMatch where
  | ExactMatch
  | PartialMatch
deriving Repr, DecidableEq

/-- Result struct `FGameplayMessageBroadcastResult`; `Reset()` is the
default value `false/false`. -/
structure FGameplayMessageBroadcastResult where
  bCancelled : Bool := false
  bInterrupted : Bool := false
deriving Repr, DecidableEq

/-- Tag-match test performed by both dispatch loops:
`bMatchAny || bMatchExact` with
`bMatchAny = (MatchType == PartialMatch) && Channel.MatchesTag(Listener.Channel)` and
`bMatchExact = (MatchType == ExactMatch) && Channel.MatchesTagExact(Listener.Channel)`. -/
def tagMatches (matchType : EGameplayMessageMatch) (channel listenerChannel : Tag) : Bool :=
  (decide (matchType = .PartialMatch) && matchesTag channel listenerChannel) ||
  (decide (matchType = .ExactMatch) && matchesTagExact channel listenerChannel)

/-- Effect a listener callback performs on the router when invoked.  The
real callback is arbitrary code; the router-relevant effects are calling
`CancelMessage`, registering or unregistering listeners, or performing a
nested broadcast on the same router. -/
inductive CbEffect where
  | noop
  | cancelMessage (bCancel bInterrupt : Bool)
  | unregisterOther (structType : Nat) (handleID : Nat)
  | registerOther (channel : Tag) (structType : Nat)
      (matchType : EGameplayMessageMatch) (priority : Int)
      (targetObject : Option Nat) (callback : CbEffect)
  | nestedBroadcast (channel : Tag) (structType : Nat) (targetObject : Option Nat)
deriving Repr, DecidableEq

/-- Listener entry `FGameplayMessageListenerData` of the global router. -/
structure FGameplayMessageListenerData where
  receivedCallback : CbEffect
  handleID : Nat
  matchType : EGameplayMessageMatch
  listenerStructTypeValid : Bool
  listenerStructType : Nat
  channel : Tag
  priority : Int
  targetObject : Option Nat
deriving Repr, DecidableEq

/-- Per-type list `FChannelListenerList`: the listener array plus the
per-list handle id counter. -/
structure FChannelListenerList where
  listeners : List FGameplayMessageListenerData := []
  handleID : Nat := 0
deriving Repr, DecidableEq

/-- State of one `UGameplayMessageSubsystem` instance: `ListenerMap` keyed
by struct type, and the shared `BroadcastResultCache` member. -/
structure GState where
  listenerMap : Nat → Option FChannelListenerList
  broadcastResultCache : FGameplayMessageBroadcastResult

/-- Freshly initialized global router. -/
def emptyGState : GState := ⟨fun _ => none, {}⟩

/-- Opaque listener handle `FGameplayMessageListenerHandle`: weak subsystem
reference (by router id), stored struct type, and handle id.  The default
value models the default constructor (null subsystem, `ID = 0`). -/
structure FGameplayMessageListenerHandle where
  subsystem : Option Nat := none
  structType : Nat := 0
  id : Nat := 0
deriving Repr, DecidableEq

/-- Handle validity test `IsValid() { return ID != 0; }`. -/
def FGameplayMessageListenerHandle.isValid (h : FGameplayMessageListenerHandle) : Bool :=
  decide (h.id ≠ 0)

/-- Index computed by the priority-insert scan shared by both
`RegisterListenerInternal` functions: walk from the tail while entries
have `Priority > Priority(new)`, stopping at the first that does not; the
insert index is the start of that maximal strictly-greater suffix. -/
def findInsertIndex (priority : Int) (pri : α → Int) (l : List α) : Nat :=
  l.length - (l.reverse.takeWhile (fun d => decide (priority < pri d))).length

/-- `TArray::Insert(entry, idx)` for `idx ≤ l.length`. -/
def insertAtIdx (l : List α) (i : Nat) (a : α) : List α := l.take i ++ a :: l.drop i

/-- `TArray::RemoveAtSwap(i)`: overwrite slot `i` with the last element and
pop the last slot. -/
def removeAtSwap (l : List α) (i : Nat) : List α :=
  match l.getLast? with
  | none => []
  | some a => (l.set i a).dropLast

/-- `UGameplayMessageSubsystem::RegisterListenerInternal`: find-or-add the
type's list, compute the priority insert index, allocate
`++List.HandleID`, insert the new entry there, and return the handle
(`self` is the router's identity, `this` in the source). -/
def RegisterListenerInternal (self : Nat) (st : GState) (channel : Tag)
    (callback : CbEffect) (structType : Nat) (matchType : EGameplayMessageMatch)
    (priority : Int) (targetObject : Option Nat) :
    GState × FGameplayMessageListenerHandle :=
  let list := (st.listenerMap structType).getD {}
  let index := findInsertIndex priority (fun d => d.priority) list.listeners
  let hid := list.handleID + 1
  let entry : FGameplayMessageListenerData :=
    { receivedCallback := callback, handleID := hid, matchType,
      listenerStructTypeValid := true, listenerStructType := structType,
      channel, priority, targetObject }
  let newList : FChannelListenerList :=
    { listeners := insertAtIdx list.listeners index entry, handleID := hid }
  ({ st with listenerMap := fun t => if t = structType then some newList else st.listenerMap t },
   { subsystem := some self, structType, id := hid })

/-- `UGameplayMessageSubsystem::UnregisterListenerInternal`: find the
type's list, locate the first entry with the handle id, `RemoveAtSwap` it,
and drop the type key entirely if the list is empty afterwards. -/
def UnregisterListenerInternal (st : GState) (structType : Nat) (handleID : Nat) : GState :=
  match st.listenerMap structType with
  | none => st
  | some L =>
    let listeners' :=
      match L.listeners.findIdx? (fun d => decide (d.handleID = handleID)) with
      | none => L.listeners
      | some i => removeAtSwap L.listeners i
    if listeners'.isEmpty then
      { st with listenerMap := fun t => if t = structType then none else st.listenerMap t }
    else
      { st with listenerMap := fun t =>
          if t = structType then some { L with listeners := listeners' } else st.listenerMap t }

/-- Outcome of `UnregisterListener`: either the updated state, or the
failure of the `check(Handle.Subsystem == this)` assertion. -/
inductive GUnregisterOutcome where
  | ok (st : GState)
  | assertFail

/-- `UGameplayMessageSubsystem::UnregisterListener`: for a valid handle,
`check(Handle.Subsystem == this)` then delegate to the internal removal;
for an invalid handle, log a warning and do nothing. -/
def UnregisterListener (self : Nat) (st : GState) (h : FGameplayMessageListenerHandle) :
    GUnregisterOutcome :=
  if h.id ≠ 0 then
    if h.subsystem = some self then
      .ok (UnregisterListenerInternal st h.structType h.id)
    else
      .assertFail
  else
    .ok st

/-- `FGameplayMessageListenerHandle::Unregister`: if the weak subsystem
reference is still set, call `UnregisterListener(*this)` on it and then
reset the handle to the default (null subsystem, null type, `ID = 0`);
otherwise do nothing.  The assertion in `UnregisterListener` cannot fire
on this path because the handle's own subsystem is the callee. -/
def HandleUnregister (st : GState) (h : FGameplayMessageListenerHandle) :
    GState × FGameplayMessageListenerHandle :=
  match h.subsystem with
  | none => (st, h)
  | some sid =>
    match UnregisterListener sid st h with
    | .ok st' => (st', {})
    | .assertFail => (st, h)

/-- `UGameplayMessageSubsystem::CancelMessage`: overwrite both flags of the
shared `BroadcastResultCache`. -/
def CancelMessage (st : GState) (bCancel bInterrupt : Bool) : GState :=
  { st with broadcastResultCache := { bCancelled := bCancel, bInterrupted := bInterrupt } }

/-- Application of one callback effect, parameterized by the dispatch
function used for a nested broadcast (instantiated with the fuelled
`BroadcastMessageInternal` below). -/
def applyEffectWith (nested : GState → Tag → Nat → Option Nat → GState) (st : GState) :
    CbEffect → GState
  | .noop => st
  | .cancelMessage c i => CancelMessage st c i
  | .unregisterOther t h => UnregisterListenerInternal st t h
  | .registerOther ch t mt pri tgt cb =>
      (RegisterListenerInternal 0 st ch cb t mt pri tgt).1
  | .nestedBroadcast ch t tgt => nested st ch t tgt

/-- Dispatch loop of `UGameplayMessageSubsystem::BroadcastMessageInternal`
over the by-value snapshot of the candidate list.  Per entry: purge and
skip stale struct types, skip type mismatches, skip target-affinity
mismatches, skip tag mismatches, otherwise invoke the callback and stop
iterating when the shared cache reports interruption.  Returns the final
state and the handle ids invoked, in order. -/
def broadcastLoop (applyE : GState → CbEffect → GState) (channel : Tag)
    (structType : Nat) (target : Option Nat) :
    GState → List FGameplayMessageListenerData → GState × List Nat
  | st, [] => (st, [])
  | st, d :: rest =>
    if d.listenerStructTypeValid = false then
      broadcastLoop applyE channel structType target
        (UnregisterListenerInternal st structType d.handleID) rest
    else if ¬ (structType = d.listenerStructType) then
      broadcastLoop applyE channel structType target st rest
    else if d.targetObject ≠ none ∧ d.targetObject ≠ target then
      broadcastLoop applyE channel structType target st rest
    else if ¬ (tagMatches d.matchType channel d.channel = true) then
      broadcastLoop applyE channel structType target st rest
    else
      let st' := applyE st d.receivedCallback
      if st'.broadcastResultCache.bInterrupted then
        (st', [d.handleID])
      else
        let r := broadcastLoop applyE channel structType target st' rest
        (r.1, d.handleID :: r.2)

/-- Body of `UGameplayMessageSubsystem::BroadcastMessageInternal` for a
given nested-broadcast interpretation: reset the shared
`BroadcastResultCache`, look up the candidate list by struct type
(returning the reset result when there is none), snapshot it, run the
dispatch loop.  The `FGameplayMessageBroadcastResult` the source returns
is `(·.1).broadcastResultCache` of the returned pair. -/
def broadcastCore (nested : GState → Tag → Nat → Option Nat → GState) (st : GState)
    (channel : Tag) (structType : Nat) (target : Option Nat) : GState × List Nat :=
  let st1 : GState := { st with broadcastResultCache := {} }
  match st1.listenerMap structType with
  | none => (st1, [])
  | some L => broadcastLoop (applyEffectWith nested) channel structType target st1 L.listeners

/-- Fuelled `UGameplayMessageSubsystem::BroadcastMessageInternal`:
`fuel` bounds the depth of re-entrant nested broadcasts (a nested
broadcast at depth 0 is a no-op; every theorem below supplies enough
fuel for the scenario it describes). -/
def BroadcastMessageInternal : Nat → GState → Tag → Nat → Option Nat → GState × List Nat
  | 0, st, ch, ty, tg => broadcastCore (fun s _ _ _ => s) st ch ty tg
  | fuel + 1, st, ch, ty, tg =>
      broadcastCore (fun s c t g => (BroadcastMessageInternal fuel s c t g).1) st ch ty tg

/-! Spatial router `UGameplayWorldMessageSubsystem`. -/

/-- World position `FVector`, with rational coordinates. -/
structure Vec where
  x : ℚ
  y : ℚ
  z : ℚ
deriving Repr, DecidableEq

/-- Grid size constant from `GameplayWorldMessageSubsystem.h`:
`constexpr float GRID_SIZE = 1600.0f`. -/
def GRID_SIZE : ℚ := 1600

/-- `FVector::DistSquared`. -/
def DistSquared (a b : Vec) : ℚ :=
  (a.x - b.x) ^ 2 + (a.y - b.y) ^ 2 + (a.z - b.z) ^ 2

/-- `FMath::Clamp(x, lo, hi)`: `(x < lo) ? lo : (x < hi) ? x : hi`. -/
def clampQ (x lo hi : ℚ) : ℚ := if x < lo then lo else if x < hi then x else hi

/-- Packing of two grid coordinates into one 64-bit id:
`(int64(GridX) << 32) | (int64(GridY) & 0xFFFFFFFF)`. -/
def packGrid (gx gy : Int) : Int := gx * 2 ^ 32 + gy % 2 ^ 32

/-- `UE::GameplayWorldMessageSubsystem::GetGridID`. -/
def GetGridID (p : Vec) : Int :=
  packGrid ⌊p.x / GRID_SIZE⌋ ⌊p.y / GRID_SIZE⌋

/-- Inclusive integer range `[lo, hi]` as a list (the `for` loops of
`GetGridsInRadius`). -/
def intRange (lo hi : Int) : List Int :=
  (List.range (hi + 1 - lo).toNat).map (fun (i : Nat) => lo + (i : Int))

/-- `UE::GameplayWorldMessageSubsystem::GetGridsInRadius`: scan the
bounding box of the circle `(center, radius)`, and keep each candidate
cell whose closest point (clamped per axis, `Z` taken from the center) is
within squared distance `radius²` of the center. -/
def GetGridsInRadius (center : Vec) (radius : ℚ) : List Int :=
  let minGridX := ⌊(center.x - radius) / GRID_SIZE⌋
  let maxGridX := ⌊(center.x + radius) / GRID_SIZE⌋
  let minGridY := ⌊(center.y - radius) / GRID_SIZE⌋
  let maxGridY := ⌊(center.y + radius) / GRID_SIZE⌋
  (intRange minGridX maxGridX).flatMap fun (gx : Int) =>
    (intRange minGridY maxGridY).filterMap fun (gy : Int) =>
      let closest : Vec :=
        { x := clampQ center.x ((gx : ℚ) * GRID_SIZE) (((gx : ℚ) + 1) * GRID_SIZE),
          y := clampQ center.y ((gy : ℚ) * GRID_SIZE) (((gy : ℚ) + 1) * GRID_SIZE),
          z := center.z }
      if DistSquared center closest ≤ radius * radius then some (packGrid gx gy) else none

/-- Listener entry `FGameplayWorldMessageListenerData` of the spatial
router.  Its callback is modelled by the effect it performs on the shared
result cache when invoked: `none` does nothing, `some (c, i)` calls
`CancelMessage(c, i)`. -/
structure FGameplayWorldMessageListenerData where
  receivedCallback : Option (Bool × Bool)
  handleID : Nat
  matchType : EGameplayMessageMatch
  listenerStructTypeValid : Bool
  listenerStructType : Nat
  channel : Tag
  priority : Int
  listenPosition : Vec
  listenRadius : ℚ
deriving Repr, DecidableEq

/-- Per-cell list `FGridListenerList` (its `HandleID` field exists in the
source but is never used by the spatial router, which allocates from a
single static counter instead). -/
structure FGridListenerList where
  listeners : List FGameplayWorldMessageListenerData := []
  handleID : Nat := 0
deriving Repr, DecidableEq

/-- Cached per-handle spatial registration info `FListenerSpatialInfo`. -/
structure FListenerSpatialInfo where
  listenPosition : Vec
  listenRadius : ℚ
deriving Repr, DecidableEq

/-- Spatial handle `FGameplayWorldMessageListenerHandle` (same shape as
the global one). -/
structure FGameplayWorldMessageListenerHandle where
  subsystem : Option Nat := none
  structType : Nat := 0
  id : Nat := 0
deriving Repr, DecidableEq

/-- State of one `UGameplayWorldMessageSubsystem` instance:
`GridListenerMap` keyed by packed grid id, `HandleToSpatialMap`, the
static handle id counter `GlobalHandleID`, and the shared
`BroadcastResultCache`. -/
structure WState where
  gridListenerMap : Int → Option FGridListenerList
  handleToSpatialMap : Nat → Option FListenerSpatialInfo
  globalHandleID : Nat
  broadcastResultCache : FGameplayMessageBroadcastResult

/-- Freshly initialized spatial router. -/
def emptyWState : WState := ⟨fun _ => none, fun _ => none, 0, {}⟩

/-- Insertion of a listener copy into one grid cell, with the same
tail-scan priority insert as the global router. -/
def insertIntoGrid (m : Int → Option FGridListenerList) (gid : Int)
    (entry : FGameplayWorldMessageListenerData) : Int → Option FGridListenerList :=
  let gridList := (m gid).getD {}
  let index := findInsertIndex entry.priority (fun d => d.priority) gridList.listeners
  fun g => if g = gid then
    some { gridList with listeners := insertAtIdx gridList.listeners index entry }
  else m g

/-- Cell set a listener at the given position/radius is registered in:
`GetGridsInRadius`, with the fallback to the single cell containing the
position when the scan found none (shared by registration, unregistration
and location update). -/
def relevantGridsFor (listenPosition : Vec) (listenRadius : ℚ) : List Int :=
  let grids0 := GetGridsInRadius listenPosition listenRadius
  if grids0.isEmpty then [GetGridID listenPosition] else grids0

/-- `UGameplayWorldMessageSubsystem::RegisterListenerInternal`: compute the
cells overlapped by the listening circle (falling back to the single cell
containing the position when none qualifies), allocate `++GlobalHandleID`,
insert a copy of the entry into each relevant cell at its priority
position, and record the spatial info for the new handle. -/

def RegisterListenerInternalW (self : Nat) (st : WState) (channel : Tag)
    (callback : Option (Bool × Bool)) (structType : Nat)
    (matchType : EGameplayMessageMatch) (priority : Int)
    (listenPosition : Vec) (listenRadius : ℚ) :
    WState × FGameplayWorldMessageListenerHandle :=
  let relevantGrids := relevantGridsFor listenPosition listenRadius
  let hid := st.globalHandleID + 1
  let entry : FGameplayWorldMessageListenerData :=
    { receivedCallback := callback, handleID := hid, matchType,
      listenerStructTypeValid := true, listenerStructType := structType,
      channel, priority, listenPosition, listenRadius }
  let newMap := relevantGrids.foldl (fun m gid => insertIntoGrid m gid entry) st.gridListenerMap
  ({ st with
      gridListenerMap := newMap,
      handleToSpatialMap := fun k =>
        if k = hid then some { listenPosition, listenRadius } else st.handleToSpatialMap k,
      globalHandleID := hid },
   { subsystem := some self, structType, id := hid })

/-- Removal pass of the spatial unregister/update paths over one cell:
`RemoveAll` entries with the handle id; afterwards the caller drops cells
whose lists became empty. -/
def removeFromGrid (m : Int → Option FGridListenerList) (gid : Int) (hid : Nat) :
    Int → Option FGridListenerList :=
  match m gid with
  | none => m
  | some gridList =>
    let listeners' := gridList.listeners.filter (fun d => ¬ (d.handleID = hid))
    if listeners'.isEmpty then
      fun g => if g = gid then none else m g
    else
      fun g => if g = gid then some { gridList with listeners := listeners' } else m g

/-- `UGameplayWorldMessageSubsystem::UnregisterListenerInternal`: look the
handle up in `HandleToSpatialMap` (warn and return when absent), recompute
the relevant cells from the cached position/radius (same fallback as
registration), `RemoveAll` the handle's entries from each of those cells,
drop cells that became empty, and erase the spatial info.  The
`StructType` parameter of the source is unused by its body. -/
def UnregisterListenerInternalW (st : WState) (_structType : Nat) (hid : Nat) : WState :=
  match st.handleToSpatialMap hid with
  | none => st
  | some info =>
    let relevantGrids := relevantGridsFor info.listenPosition info.listenRadius
    let newMap := relevantGrids.foldl (fun m gid => removeFromGrid m gid hid) st.gridListenerMap
    { st with
        gridListenerMap := newMap,
        handleToSpatialMap := fun k => if k = hid then none else st.handleToSpatialMap k }

/-- `UGameplayWorldMessageSubsystem::UnregisterListener`: valid handle plus
`check(Handle.Subsystem == this)`, then the internal removal; warn-only
no-op for an invalid handle. -/
def UnregisterListenerW (self : Nat) (st : WState) (h : FGameplayWorldMessageListenerHandle) :
    Option WState :=
  if h.id ≠ 0 then
    if h.subsystem = some self then some (UnregisterListenerInternalW st h.structType h.id)
    else none
  else some st

/-- In-place mutation pass of `UpdateRegisterListenerLocation` over cells
kept by the move: update position/radius of the first entry carrying the
handle id. -/
def mutateInGrid (m : Int → Option FGridListenerList) (gid : Int) (hid : Nat)
    (newPos : Vec) (newRad : ℚ) : Int → Option FGridListenerList :=
  match m gid with
  | none => m
  | some gridList =>
    match gridList.listeners.findIdx? (fun d => decide (d.handleID = hid)) with
    | none => m
    | some i =>
      match gridList.listeners[i]? with
      | none => m
      | some d =>
        fun g => if g = gid then
          some { gridList with listeners :=
            gridList.listeners.set i { d with listenPosition := newPos, listenRadius := newRad } }
        else m g

/-- Search of `UpdateRegisterListenerLocation` for the listener data to
copy: first entry with the handle id in any of the old cells. -/
def findListenerData (m : Int → Option FGridListenerList) (grids : List Int) (hid : Nat) :
    Option FGameplayWorldMessageListenerData :=
  match grids with
  | [] => none
  | gid :: rest =>
    match m gid with
    | none => findListenerData m rest hid
    | some gridList =>
      match gridList.listeners.find? (fun d => decide (d.handleID = hid)) with
      | some d => some d
      | none => findListenerData m rest hid

/-- `UGameplayWorldMessageSubsystem::UpdateRegisterListenerLocation`:
reject invalid or foreign handles and handles with no spatial info
(returning `false` with the state unchanged); otherwise keep the old
radius when the new one is negative, recompute old and new cell sets
(with the same single-cell fallback), remove the entry from cells left,
drop emptied cells, insert an updated copy into cells joined, mutate the
entry in place in cells kept, and refresh the spatial info. -/
def UpdateRegisterListenerLocation (self : Nat) (st : WState)
    (h : FGameplayWorldMessageListenerHandle) (newListenPosition : Vec)
    (newListenRadius : ℚ) : Bool × WState :=
  if h.id = 0 ∨ h.subsystem ≠ some self then (false, st)
  else
    match st.handleToSpatialMap h.id with
    | none => (false, st)
    | some info =>
      let actualNewRadius := if 0 ≤ newListenRadius then newListenRadius else info.listenRadius
      let oldGrids := relevantGridsFor info.listenPosition info.listenRadius
      let newGrids := relevantGridsFor newListenPosition actualNewRadius
      let gridsToRemoveFrom := oldGrids.filter (fun g => ¬ newGrids.contains g)
      let gridsToAddTo := newGrids.filter (fun g => ¬ oldGrids.contains g)
      match findListenerData st.gridListenerMap oldGrids h.id with
      | none => (false, st)
      | some d =>
        let updatedEntry : FGameplayWorldMessageListenerData :=
          { d with listenPosition := newListenPosition, listenRadius := actualNewRadius }
        let m1 := gridsToRemoveFrom.foldl (fun m gid => removeFromGrid m gid h.id)
          st.gridListenerMap
        let m2 := gridsToAddTo.foldl (fun m gid => insertIntoGrid m gid updatedEntry) m1
        let m3 := (oldGrids.filter (fun g => newGrids.contains g)).foldl
          (fun m gid => mutateInGrid m gid h.id newListenPosition actualNewRadius) m2
        (true,
         { st with
            gridListenerMap := m3,
            handleToSpatialMap := fun k =>
              if k = h.id then
                some { listenPosition := newListenPosition, listenRadius := actualNewRadius }
              else st.handleToSpatialMap k })

/-- Dispatch loop of `UGameplayWorldMessageSubsystem::BroadcastMessageInternal`
over the by-value snapshot of the broadcast cell's list.  Per entry: purge
and skip stale struct types, skip type mismatches, skip entries whose
squared distance to the broadcast position exceeds `ListenRadius²`, skip
tag mismatches, otherwise invoke and stop on interruption. -/
def broadcastLoopW (channel : Tag) (structType : Nat) (worldPosition : Vec) :
    WState → List FGameplayWorldMessageListenerData → WState × List Nat
  | st, [] => (st, [])
  | st, d :: rest =>
    if d.listenerStructTypeValid = false then
      broadcastLoopW channel structType worldPosition
        (UnregisterListenerInternalW st structType d.handleID) rest
    else if ¬ (structType = d.listenerStructType) then
      broadcastLoopW channel structType worldPosition st rest
    else if DistSquared worldPosition d.listenPosition > d.listenRadius * d.listenRadius then
      broadcastLoopW channel structType worldPosition st rest
    else if ¬ (tagMatches d.matchType channel d.channel = true) then
      broadcastLoopW channel structType worldPosition st rest
    else
      let st' :=
        match d.receivedCallback with
        | none => st
        | some (c, i) => { st with broadcastResultCache := { bCancelled := c, bInterrupted := i } }
      if st'.broadcastResultCache.bInterrupted then
        (st', [d.handleID])
      else
        let r := broadcastLoopW channel structType worldPosition st' rest
        (r.1, d.handleID :: r.2)

/-- `UGameplayWorldMessageSubsystem::BroadcastMessageInternal`: reset the
shared cache, look up only the cell containing the broadcast position
(returning the reset result when that cell has no listener list), snapshot
it, and run the spatial dispatch loop. -/
def BroadcastMessageInternalW (st : WState) (channel : Tag) (structType : Nat)
    (worldPosition : Vec) : WState × List Nat :=
  let st1 : WState := { st with broadcastResultCache := {} }
  match st1.gridListenerMap (GetGridID worldPosition) with
  | none => (st1, [])
  | some L => broadcastLoopW channel structType worldPosition st1 L.listeners

/-! Ordering machinery for the tail-scan priority insert shared by both
`RegisterListenerInternal` functions. -/

/-- Intended order of a listener list: ascending priority, and ascending
handle id (that is, registration order) among equal priorities. -/
def priOrder (pri : α → Int) (hid : α → Nat) (a b : α) : Prop :=
  pri a < pri b ∨ (pri a = pri b ∧ hid a < hid b)

theorem dropWhile_head_false (p : α → Bool) (l : List α) {a : α} {t : List α}
    (h : l.dropWhile p = a :: t) : p a = false := by
  induction l with
  | nil => simp [List.dropWhile] at h
  | cons x xs ih =>
    rw [List.dropWhile_cons] at h
    by_cases hx : p x = true
    · exact ih (by simpa [hx] using h)
    · simp [hx] at h
      simp [← h.1]
      simpa using hx

theorem mem_insertAtIdx {l : List α} {i : Nat} {e a : α}
    (h : a ∈ insertAtIdx l i e) : a ∈ l ∨ a = e := by
  unfold insertAtIdx at h
  rcases List.mem_append.mp h with h1 | h2
  · exact Or.inl (List.take_subset i l h1)
  · rcases List.mem_cons.mp h2 with h3 | h4
    · exact Or.inr h3
    · exact Or.inl (List.drop_subset i l h4)

theorem insertAtIdx_map (f : α → β) (l : List α) (i : Nat) (e : α) :
    (insertAtIdx l i e).map f = insertAtIdx (l.map f) i (f e) := by
  simp [insertAtIdx, List.map_take, List.map_drop]

theorem nodup_insertAtIdx {l : List β} {i : Nat} {x : β}
    (h : l.Nodup) (hx : x ∉ l) : (insertAtIdx l i x).Nodup := by
  unfold insertAtIdx
  refine List.nodup_middle.mpr ?_
  rw [List.take_append_drop]
  exact List.nodup_cons.mpr ⟨hx, h⟩

/-- Correctness of the tail-scan insert: inserting an entry with a fresh
(largest) id at the index computed by `findInsertIndex` preserves the
ascending-priority, registration-order-stable ordering. -/
theorem insert_preserves_priOrder (pri : α → Int) (hid : α → Nat) (l : List α) (e : α)
    (hsort : l.Pairwise (priOrder pri hid)) (hfresh : ∀ d ∈ l, hid d < hid e) :
    (insertAtIdx l (findInsertIndex (pri e) pri l) e).Pairwise (priOrder pri hid) := by
  set p : α → Bool := fun d => decide (pri e < pri d) with hp
  set r : List α := l.reverse with hr
  set A : List α := (r.dropWhile p).reverse with hA
  set B : List α := (r.takeWhile p).reverse with hB
  have hLr : l = A ++ B := by
    rw [hA, hB, ← List.reverse_append, List.takeWhile_append_dropWhile, hr,
      List.reverse_reverse]
  have hBlen : B.length = (r.takeWhile p).length := by rw [hB, List.length_reverse]
  have hidx : findInsertIndex (pri e) pri l = A.length := by
    show l.length - (l.reverse.takeWhile (fun d => decide (pri e < pri d))).length = A.length
    rw [← hr, ← hp, ← hBlen]
    have : l.length = A.length + B.length := by rw [hLr, List.length_append]
    omega
  have hins : insertAtIdx l A.length e = A ++ e :: B := by
    unfold insertAtIdx
    rw [hLr, List.take_left, List.drop_left]
  rw [hidx, hins]
  rw [hLr] at hsort
  rcases List.pairwise_append.mp hsort with ⟨hpA, hpB, hAB⟩
  have hEb : ∀ b ∈ B, priOrder pri hid e b := by
    intro b hb
    have hmem : b ∈ r.takeWhile p := by rw [hB] at hb; exact List.mem_reverse.mp hb
    exact Or.inl (by simpa [hp] using List.mem_takeWhile_imp hmem)
  have hAe : ∀ a ∈ A, pri a ≤ pri e := by
    cases hd : r.dropWhile p with
    | nil =>
      intro a ha
      rw [hA, hd] at ha
      simp at ha
    | cons h0 t =>
      have hph0 : p h0 = false := dropWhile_head_false p r hd
      have hle0 : pri h0 ≤ pri e := by
        have : ¬ (pri e < pri h0) := by simpa [hp] using hph0
        omega
      intro a ha
      have hA' : A = t.reverse ++ [h0] := by rw [hA, hd, List.reverse_cons]
      rw [hA'] at ha
      rcases List.mem_append.mp ha with h1 | h2
      · have hpA' := hpA
        rw [hA'] at hpA'
        rcases List.pairwise_append.mp hpA' with ⟨_, _, hcross⟩
        have := hcross a h1 h0 (List.mem_singleton.mpr rfl)
        rcases this with hlt | ⟨heq, _⟩
        · omega
        · omega
      · rw [List.mem_singleton.mp h2]
        exact hle0
  have hAe' : ∀ a ∈ A, priOrder pri hid a e := by
    intro a ha
    rcases lt_or_eq_of_le (hAe a ha) with hlt | heq
    · exact Or.inl hlt
    · exact Or.inr ⟨heq, hfresh a (by rw [hLr]; exact List.mem_append_left _ ha)⟩
  refine List.pairwise_append.mpr ⟨hpA, List.pairwise_cons.mpr ⟨hEb, hpB⟩, ?_⟩
  intro a ha b hb
  rcases List.mem_cons.mp hb with hbe | hbB
  · rw [hbe]; exact hAe' a ha
  · exact hAB a ha b hbB

/-! Register-only reachability invariant of the global router. -/

/-- Well-formedness of one per-type list: ordered by `priOrder`, every
stored id at most the list's counter, and ids pairwise distinct. -/
def listWellFormed (L : FChannelListenerList) : Prop :=
  L.listeners.Pairwise (priOrder (fun d => d.priority) (fun d => d.handleID)) ∧
  (∀ d ∈ L.listeners, d.handleID ≤ L.handleID) ∧
  (L.listeners.map (fun d => d.handleID)).Nodup

/-- Well-formedness of every per-type list of a global router state. -/
def GInv (st : GState) : Prop :=
  ∀ t L, st.listenerMap t = some L → listWellFormed L

theorem emptyGState_GInv : GInv emptyGState := by
  intro t L h
  simp [emptyGState] at h

theorem listWellFormed_default : listWellFormed {} := by
  refine ⟨List.Pairwise.nil, ?_, List.nodup_nil⟩
  intro d hd
  simp at hd

theorem register_preserves_GInv (self : Nat) (st : GState) (ch : Tag) (cb : CbEffect)
    (ty : Nat) (mt : EGameplayMessageMatch) (pri : Int) (tg : Option Nat)
    (hinv : GInv st) :
    GInv (RegisterListenerInternal self st ch cb ty mt pri tg).1 := by
  intro t L hL
  unfold RegisterListenerInternal at hL
  simp only at hL
  by_cases ht : t = ty
  · subst ht
    rw [if_pos rfl] at hL
    have hold : listWellFormed ((st.listenerMap t).getD {}) := by
      cases hmap : st.listenerMap t with
      | none => simpa [hmap] using listWellFormed_default
      | some L0 => simpa [hmap] using hinv t L0 hmap
    set old := (st.listenerMap t).getD {} with hO
    rcases hold with ⟨hsort, hbound, hnodup⟩
    cases hL
    have hfresh : ∀ d ∈ old.listeners, d.handleID < old.handleID + 1 :=
      fun d hd => Nat.lt_succ_of_le (hbound d hd)
    refine ⟨?_, ?_, ?_⟩
    · exact insert_preserves_priOrder (fun d => d.priority) (fun d => d.handleID)
        old.listeners
        { receivedCallback := cb, handleID := old.handleID + 1, matchType := mt,
          listenerStructTypeValid := true, listenerStructType := t,
          channel := ch, priority := pri, targetObject := tg } hsort hfresh
    · intro d hd
      rcases mem_insertAtIdx hd with h1 | h2
      · exact Nat.le_succ_of_le (hbound d h1)
      · rw [h2]
    · rw [insertAtIdx_map]
      refine nodup_insertAtIdx hnodup ?_
      intro hmem
      rcases List.mem_map.mp hmem with ⟨d, hd, hde⟩
      have hb := hbound d hd
      have h3 : d.handleID = old.handleID + 1 := hde
      omega
  · rw [if_neg ht] at hL
    exact hinv t L hL

/-- One recorded `RegisterListenerInternal` call (global router). -/
structure RegisterRequest where
  channel : Tag
  callback : CbEffect
  structType : Nat
  matchType : EGameplayMessageMatch
  priority : Int
  targetObject : Option Nat

/-- Sequential application of register calls to a global router state. -/
def applyRegisters (self : Nat) (st : GState) : List RegisterRequest → GState
  | [] => st
  | r :: rs =>
    applyRegisters self
      (RegisterListenerInternal self st r.channel r.callback r.structType
        r.matchType r.priority r.targetObject).1 rs

theorem applyRegisters_preserves_GInv (self : Nat) (reqs : List RegisterRequest)
    (st : GState) (hinv : GInv st) : GInv (applyRegisters self st reqs) := by
  induction reqs generalizing st with
  | nil => exact hinv
  | cons r rs ih =>
    exact ih _ (register_preserves_GInv self st r.channel r.callback r.structType
      r.matchType r.priority r.targetObject hinv)

/-! Characterization of the global dispatch loop. -/

/-- Conjunction of the four per-entry filters of the global dispatch loop:
the entry's stored struct type is still valid, equals the broadcast type,
the target affinity is absent or equals the broadcast target, and the tag
rule matches. -/
def passesFilters (channel : Tag) (structType : Nat) (target : Option Nat)
    (d : FGameplayMessageListenerData) : Bool :=
  d.listenerStructTypeValid && decide (structType = d.listenerStructType) &&
  (decide (d.targetObject = none) || decide (d.targetObject = target)) &&
  tagMatches d.matchType channel d.channel

/-- Effects that never touch the shared `BroadcastResultCache`. -/
def flagNeutral : CbEffect → Bool
  | .noop => true
  | .unregisterOther _ _ => true
  | .registerOther _ _ _ _ _ _ => true
  | .cancelMessage _ _ => false
  | .nestedBroadcast _ _ _ => false

/-- Effects whose application cannot leave `bInterrupted` set (given it was
clear before). -/
def neverInterrupts : CbEffect → Bool
  | .noop => true
  | .unregisterOther _ _ => true
  | .registerOther _ _ _ _ _ _ => true
  | .cancelMessage _ i => !i
  | .nestedBroadcast _ _ _ => false

theorem unregisterInternal_cache (st : GState) (ty hid : Nat) :
    (UnregisterListenerInternal st ty hid).broadcastResultCache = st.broadcastResultCache := by
  unfold UnregisterListenerInternal
  cases st.listenerMap ty with
  | none => rfl
  | some L =>
    dsimp only
    split <;> rfl

theorem applyEffectWith_flagNeutral_cache (nested : GState → Tag → Nat → Option Nat → GState)
    (st : GState) (e : CbEffect) (he : flagNeutral e = true) :
    (applyEffectWith nested st e).broadcastResultCache = st.broadcastResultCache := by
  cases e with
  | noop => rfl
  | cancelMessage c i => simp [flagNeutral] at he
  | unregisterOther t h => exact unregisterInternal_cache st t h
  | registerOther ch t mt pri tgt cb => rfl
  | nestedBroadcast ch t tgt => simp [flagNeutral] at he

theorem applyEffectWith_neverInterrupts (nested : GState → Tag → Nat → Option Nat → GState)
    (st : GState) (e : CbEffect) (he : neverInterrupts e = true)
    (hst : st.broadcastResultCache.bInterrupted = false) :
    (applyEffectWith nested st e).broadcastResultCache.bInterrupted = false := by
  cases e with
  | noop => exact hst
  | cancelMessage c i =>
    simp [neverInterrupts] at he
    simp [applyEffectWith, CancelMessage, he]
  | unregisterOther t h =>
    show (UnregisterListenerInternal st t h).broadcastResultCache.bInterrupted = false
    rw [unregisterInternal_cache]
    exact hst
  | registerOther ch t mt pri tgt cb => exact hst
  | nestedBroadcast ch t tgt => simp [neverInterrupts] at he

/-- State left by skipping one entry: the stale-purge branch unregisters
the entry from the live registry, the other skip branches leave the state
alone. -/
def skipState (ty : Nat) (st : GState) (d : FGameplayMessageListenerData) : GState :=
  if d.listenerStructTypeValid = false then UnregisterListenerInternal st ty d.handleID else st

theorem skipState_cache (ty : Nat) (st : GState) (d : FGameplayMessageListenerData) :
    (skipState ty st d).broadcastResultCache = st.broadcastResultCache := by
  unfold skipState
  split
  · exact unregisterInternal_cache st ty d.handleID
  · rfl

/-- One loop step on an entry that fails one of the filters: the entry is
skipped (possibly after the stale-purge self-unregister, which does not
touch the cache). -/
theorem loop_cons_skip (applyE : GState → CbEffect → GState) (ch : Tag) (ty : Nat)
    (tg : Option Nat) (d : FGameplayMessageListenerData)
    (rest : List FGameplayMessageListenerData) (st : GState)
    (hd : passesFilters ch ty tg d = false) :
    broadcastLoop applyE ch ty tg st (d :: rest) =
      broadcastLoop applyE ch ty tg (skipState ty st d) rest := by
  by_cases h1 : d.listenerStructTypeValid = false
  · simp only [broadcastLoop, if_pos h1, skipState]
  · rw [skipState, if_neg h1]
    by_cases h2 : ty = d.listenerStructType
    · by_cases h3 : d.targetObject ≠ none ∧ d.targetObject ≠ tg
      · simp only [broadcastLoop, if_neg h1, if_neg (not_not_intro h2), if_pos h3]
      · by_cases h4 : tagMatches d.matchType ch d.channel = true
        · exfalso
          have hv : d.listenerStructTypeValid = true := by
            cases hvv : d.listenerStructTypeValid
            · exact absurd hvv h1
            · rfl
          have h3' : d.targetObject = none ∨ d.targetObject = tg := by
            by_contra hc
            push_neg at hc
            exact h3 ⟨hc.1, hc.2⟩
          have hpt : passesFilters ch ty tg d = true := by
            unfold passesFilters
            rcases h3' with h3a | h3b
            · simp [hv, h2, h3a, h4]
            · simp [hv, h2, h3b, h4]
          rw [hpt] at hd
          simp at hd
        · simp only [broadcastLoop, if_neg h1, if_neg (not_not_intro h2), if_neg h3, if_pos h4]
    · simp only [broadcastLoop, if_neg h1, if_pos h2]

/-- One loop step on an entry that passes all filters: the callback is
invoked and iteration stops if the shared cache then reports
interruption. -/
theorem loop_cons_invoke (applyE : GState → CbEffect → GState) (ch : Tag) (ty : Nat)
    (tg : Option Nat) (d : FGameplayMessageListenerData)
    (rest : List FGameplayMessageListenerData) (st : GState)
    (hd : passesFilters ch ty tg d = true) :
    broadcastLoop applyE ch ty tg st (d :: rest) =
      (if (applyE st d.receivedCallback).broadcastResultCache.bInterrupted then
        ((applyE st d.receivedCallback), [d.handleID])
      else
        ((broadcastLoop applyE ch ty tg (applyE st d.receivedCallback) rest).1,
          d.handleID :: (broadcastLoop applyE ch ty tg (applyE st d.receivedCallback) rest).2)) := by
  unfold passesFilters at hd
  simp only [Bool.and_eq_true, Bool.or_eq_true, decide_eq_true_eq] at hd
  obtain ⟨⟨⟨hv, h2⟩, h3⟩, h4⟩ := hd
  have h1 : ¬ (d.listenerStructTypeValid = false) := by simp [hv]
  have h3' : ¬ (d.targetObject ≠ none ∧ d.targetObject ≠ tg) := by
    rcases h3 with h3a | h3b
    · exact fun hc => hc.1 h3a
    · exact fun hc => hc.2 h3b
  simp only [broadcastLoop, if_neg h1, if_neg (not_not_intro h2), if_neg h3',
    if_neg (not_not_intro h4)]

/-- Every invoked handle id comes from an entry of the snapshot the loop
was given. -/
theorem loop_invoked_mem (applyE : GState → CbEffect → GState) (ch : Tag) (ty : Nat)
    (tg : Option Nat) :
    ∀ (L : List FGameplayMessageListenerData) (st : GState) (x : Nat),
      x ∈ (broadcastLoop applyE ch ty tg st L).2 → ∃ d ∈ L, d.handleID = x := by
  intro L
  induction L with
  | nil =>
    intro st x hx
    simp [broadcastLoop] at hx
  | cons d rest ih =>
    intro st x hx
    by_cases hp : passesFilters ch ty tg d = true
    · rw [loop_cons_invoke applyE ch ty tg d rest st hp] at hx
      split at hx
      · simp at hx
        exact ⟨d, List.mem_cons_self d rest, hx.symm⟩
      · simp only at hx
        rcases List.mem_cons.mp hx with h | h
        · exact ⟨d, List.mem_cons_self d rest, h.symm⟩
        · rcases ih _ x h with ⟨d', hd', he⟩
          exact ⟨d', List.mem_cons_of_mem d hd', he⟩
    · rw [loop_cons_skip applyE ch ty tg d rest st (by simpa using hp)] at hx
      rcases ih _ x hx with ⟨d', hd', he⟩
      exact ⟨d', List.mem_cons_of_mem d hd', he⟩

/-- Composition of the loop over an append, provided scanning the first
part did not end interrupted (the loop stops early only by leaving
`bInterrupted` set, so a clear flag at the end of the first part means it
ran in full). -/
theorem loop_append (applyE : GState → CbEffect → GState) (ch : Tag) (ty : Nat)
    (tg : Option Nat) (L2 : List FGameplayMessageListenerData) :
    ∀ (L1 : List FGameplayMessageListenerData) (st : GState),
      (broadcastLoop applyE ch ty tg st L1).1.broadcastResultCache.bInterrupted = false →
      broadcastLoop applyE ch ty tg st (L1 ++ L2) =
        ((broadcastLoop applyE ch ty tg (broadcastLoop applyE ch ty tg st L1).1 L2).1,
         (broadcastLoop applyE ch ty tg st L1).2 ++
           (broadcastLoop applyE ch ty tg (broadcastLoop applyE ch ty tg st L1).1 L2).2) := by
  intro L1
  induction L1 with
  | nil =>
    intro st _
    simp [broadcastLoop]
  | cons d rest ih =>
    intro st hint
    by_cases hp : passesFilters ch ty tg d = true
    · rw [loop_cons_invoke applyE ch ty tg d rest st hp] at hint ⊢
      rw [List.cons_append, loop_cons_invoke applyE ch ty tg d (rest ++ L2) st hp]
      by_cases hi : (applyE st d.receivedCallback).broadcastResultCache.bInterrupted = true
      · rw [if_pos hi] at hint
        simp [hi] at hint
      · rw [if_neg hi] at hint ⊢
        rw [if_neg hi]
        simp only at hint
        rw [ih _ hint]
        simp
    · rw [loop_cons_skip applyE ch ty tg d rest st (by simpa using hp)] at hint ⊢
      rw [List.cons_append, loop_cons_skip applyE ch ty tg d (rest ++ L2) st (by simpa using hp)]
      exact ih _ hint

theorem flagNeutral_neverInterrupts (e : CbEffect) (he : flagNeutral e = true) :
    neverInterrupts e = true := by
  cases e <;> simp [flagNeutral, neverInterrupts] at he ⊢

/-- Nested-broadcast interpretation used at a given fuel level. -/
def nestedFor : Nat → GState → Tag → Nat → Option Nat → GState
  | 0 => fun s _ _ _ => s
  | fuel + 1 => fun s c t g => (BroadcastMessageInternal fuel s c t g).1

theorem broadcastMessageInternal_eq (fuel : Nat) (st : GState) (ch : Tag) (ty : Nat)
    (tg : Option Nat) :
    BroadcastMessageInternal fuel st ch ty tg = broadcastCore (nestedFor fuel) st ch ty tg := by
  cases fuel <;> rfl

/-- Full traversal: when no invoked callback can leave the interruption
flag set, the loop runs to the end and invokes exactly the snapshot
entries passing the filters, in snapshot order — whatever registry
mutations the callbacks perform. -/
theorem loop_full_run (nested : GState → Tag → Nat → Option Nat → GState) (ch : Tag)
    (ty : Nat) (tg : Option Nat) :
    ∀ (L : List FGameplayMessageListenerData) (st : GState),
      st.broadcastResultCache.bInterrupted = false →
      (∀ d ∈ L, passesFilters ch ty tg d = true → neverInterrupts d.receivedCallback = true) →
      (broadcastLoop (applyEffectWith nested) ch ty tg st L).2
        = (L.filter (passesFilters ch ty tg)).map (fun d => d.handleID) := by
  intro L
  induction L with
  | nil =>
    intro st h0 hL
    simp [broadcastLoop]
  | cons d rest ih =>
    intro st h0 hL
    by_cases hp : passesFilters ch ty tg d = true
    · rw [loop_cons_invoke _ ch ty tg d rest st hp]
      have hni := hL d (List.mem_cons_self d rest) hp
      have hint : (applyEffectWith nested st d.receivedCallback).broadcastResultCache.bInterrupted
          = false := applyEffectWith_neverInterrupts nested st _ hni h0
      rw [if_neg (by simp [hint])]
      simp only
      rw [ih _ hint (fun d' hd' => hL d' (List.mem_cons_of_mem d hd'))]
      simp [List.filter_cons, hp]
    · rw [loop_cons_skip _ ch ty tg d rest st (by simpa using hp)]
      rw [ih _ (by rw [skipState_cache]; exact h0)
        (fun d' hd' => hL d' (List.mem_cons_of_mem d hd'))]
      simp [List.filter_cons, hp]

/-- Traversal over a segment of do-nothing callbacks: the shared cache is
returned unchanged, and (when not entered interrupted) the segment's
passing entries are invoked in order. -/
theorem loop_noop_run (nested : GState → Tag → Nat → Option Nat → GState) (ch : Tag)
    (ty : Nat) (tg : Option Nat) :
    ∀ (L : List FGameplayMessageListenerData) (st : GState),
      (∀ d ∈ L, d.receivedCallback = .noop) →
      (broadcastLoop (applyEffectWith nested) ch ty tg st L).1.broadcastResultCache
          = st.broadcastResultCache
      ∧ (st.broadcastResultCache.bInterrupted = false →
          (broadcastLoop (applyEffectWith nested) ch ty tg st L).2
            = (L.filter (passesFilters ch ty tg)).map (fun d => d.handleID)) := by
  intro L
  induction L with
  | nil =>
    intro st hL
    exact ⟨rfl, fun _ => by simp [broadcastLoop]⟩
  | cons d rest ih =>
    intro st hL
    have hdn : d.receivedCallback = .noop := hL d (List.mem_cons_self d rest)
    have hrest : ∀ d' ∈ rest, d'.receivedCallback = .noop :=
      fun d' hd' => hL d' (List.mem_cons_of_mem d hd')
    by_cases hp : passesFilters ch ty tg d = true
    · rw [loop_cons_invoke _ ch ty tg d rest st hp]
      have happ : applyEffectWith nested st d.receivedCallback = st := by
        rw [hdn]
        rfl
      rw [happ]
      by_cases hi : st.broadcastResultCache.bInterrupted = true
      · rw [if_pos hi]
        exact ⟨rfl, fun h0 => by rw [h0] at hi; cases hi⟩
      · rw [if_neg hi]
        rcases ih st hrest with ⟨ihc, ihv⟩
        refine ⟨ihc, fun h0 => ?_⟩
        simp only
        rw [ihv h0]
        simp [List.filter_cons, hp]
    · rw [loop_cons_skip _ ch ty tg d rest st (by simpa using hp)]
      rcases ih (skipState ty st d) hrest with ⟨ihc, ihv⟩
      rw [skipState_cache] at ihc ihv
      refine ⟨ihc, fun h0 => ?_⟩
      rw [ihv h0]
      simp [List.filter_cons, hp]

/-- C4: the dispatch loop iterates over a by-value snapshot of the
candidate listener list taken before any callback runs: as long as the
callbacks only register or unregister listeners (or do nothing) — which
never touches the shared result cache — the invoked listeners are exactly
the snapshot entries passing the filters, in snapshot order, so no
listener is skipped or double-invoked relative to the pre-callback
snapshot by in-flight registration or unregistration. -/
theorem reentrant_snapshot_dispatch (fuel : Nat) (st : GState) (ch : Tag) (ty : Nat)
    (tg : Option Nat) (L : List FGameplayMessageListenerData) (n : Nat)
    (hmap : st.listenerMap ty = some { listeners := L, handleID := n })
    (hneutral : ∀ d ∈ L, flagNeutral d.receivedCallback = true) :
    (BroadcastMessageInternal fuel st ch ty tg).2
      = (L.filter (passesFilters ch ty tg)).map (fun d => d.handleID) := by
  rw [broadcastMessageInternal_eq]
  unfold broadcastCore
  simp only [hmap]
  exact loop_full_run (nestedFor fuel) ch ty tg L _ rfl
    (fun d hd _ => flagNeutral_neverInterrupts _ (hneutral d hd))

/-- Concrete state for the reentrancy scenario: three listeners on type 1
(handle ids 1, 2, 3), where the first listener's callback unregisters the
third, not-yet-invoked one. -/
def stReentrant : GState :=
  (RegisterListenerInternal 0
    (RegisterListenerInternal 0
      (RegisterListenerInternal 0 emptyGState [0] (.unregisterOther 1 3) 1 .ExactMatch 0 none).1
      [0] .noop 1 .ExactMatch 0 none).1
    [0] .noop 1 .ExactMatch 0 none).1

theorem reentrant_snapshot_dispatch_witness :
    (stReentrant.listenerMap 1).isSome = true
    ∧ (BroadcastMessageInternal 1 stReentrant [0] 1 none).2 = [1, 2, 3] := by
  refine ⟨by decide, ?_⟩
  have h := reentrant_snapshot_dispatch 1 stReentrant [0] 1 none
    ((stReentrant.listenerMap 1).getD {}).listeners 3 (by decide) (by decide)
  exact h.trans (by decide)

/-- C3: when a dispatched listener's callback calls
`CancelMessage(true, true)`, the loop stops right after it (no later
snapshot entry is invoked) and the returned cache has
`bInterrupted = true`; when it calls `CancelMessage(true, false)` instead
(all other callbacks doing nothing), every remaining matching listener is
still invoked and the returned cache is
`bCancelled = true, bInterrupted = false`. -/
theorem cancel_interrupt_semantics (fuel : Nat) (st : GState) (ch : Tag) (ty : Nat)
    (tg : Option Nat) (L1 L2 : List FGameplayMessageListenerData)
    (dk : FGameplayMessageListenerData) (n : Nat)
    (hmap : st.listenerMap ty = some { listeners := L1 ++ dk :: L2, handleID := n })
    (h1 : ∀ d ∈ L1, d.receivedCallback = .noop)
    (h2 : ∀ d ∈ L2, d.receivedCallback = .noop)
    (hpass : passesFilters ch ty tg dk = true) :
    (dk.receivedCallback = .cancelMessage true true →
      (BroadcastMessageInternal fuel st ch ty tg).2
        = (L1.filter (passesFilters ch ty tg)).map (fun d => d.handleID) ++ [dk.handleID]
      ∧ (BroadcastMessageInternal fuel st ch ty tg).1.broadcastResultCache.bInterrupted = true)
    ∧ (dk.receivedCallback = .cancelMessage true false →
      (BroadcastMessageInternal fuel st ch ty tg).2
        = ((L1 ++ dk :: L2).filter (passesFilters ch ty tg)).map (fun d => d.handleID)
      ∧ (BroadcastMessageInternal fuel st ch ty tg).1.broadcastResultCache
          = { bCancelled := true, bInterrupted := false }) := by
  rw [broadcastMessageInternal_eq]
  unfold broadcastCore
  simp only [hmap]
  set A := applyEffectWith (nestedFor fuel) with hA
  set st1 : GState := { st with broadcastResultCache := {} } with hst1
  have hcache1 : st1.broadcastResultCache = {} := rfl
  have hn1 := loop_noop_run (nestedFor fuel) ch ty tg L1 st1 h1
  have hIfalse : (broadcastLoop A ch ty tg st1 L1).1.broadcastResultCache.bInterrupted
      = false := by
    rw [hn1.1, hcache1]
  rw [loop_append A ch ty tg (dk :: L2) L1 st1 hIfalse]
  set mid : GState := (broadcastLoop A ch ty tg st1 L1).1 with hmid
  have hv1 : (broadcastLoop A ch ty tg st1 L1).2
      = (L1.filter (passesFilters ch ty tg)).map (fun d => d.handleID) := by
    exact hn1.2 (by rw [hcache1])
  rw [loop_cons_invoke A ch ty tg dk L2 mid hpass]
  constructor
  · intro hcb
    have happ : A mid dk.receivedCallback = CancelMessage mid true true := by
      rw [hcb]; rfl
    have hic : (A mid dk.receivedCallback).broadcastResultCache
        = { bCancelled := true, bInterrupted := true } := by rw [happ]; rfl
    rw [if_pos (by rw [hic])]
    constructor
    · simp only
      rw [hv1]
    · rw [hic]
  · intro hcb
    have happ : A mid dk.receivedCallback = CancelMessage mid true false := by
      rw [hcb]; rfl
    have hic : (A mid dk.receivedCallback).broadcastResultCache
        = { bCancelled := true, bInterrupted := false } := by rw [happ]; rfl
    rw [if_neg (by rw [hic]; exact Bool.false_ne_true)]
    have hn2 := loop_noop_run (nestedFor fuel) ch ty tg L2 (A mid dk.receivedCallback) h2
    rw [← hA] at hn2
    constructor
    · simp only
      rw [hv1, hn2.2 (by rw [hic])]
      rw [List.filter_append, List.filter_cons, if_pos hpass, List.map_append, List.map_cons]
    · simp only
      rw [hn2.1, hic]

/-- Concrete states for the cancellation scenario: listeners with handle
ids 1, 2, 3 on type 1, id 2 calling `CancelMessage(true, true)` in the
first state and `CancelMessage(true, false)` in the second. -/
def stCancelHard : GState :=
  (RegisterListenerInternal 0
    (RegisterListenerInternal 0
      (RegisterListenerInternal 0 emptyGState [0] .noop 1 .ExactMatch 0 none).1
      [0] (.cancelMessage true true) 1 .ExactMatch 0 none).1
    [0] .noop 1 .ExactMatch 0 none).1

def stCancelSoft : GState :=
  (RegisterListenerInternal 0
    (RegisterListenerInternal 0
      (RegisterListenerInternal 0 emptyGState [0] .noop 1 .ExactMatch 0 none).1
      [0] (.cancelMessage true false) 1 .ExactMatch 0 none).1
    [0] .noop 1 .ExactMatch 0 none).1

/-- Explicit listener entries making up the cancellation scenario
states. -/
def entryNoop (hid : Nat) : FGameplayMessageListenerData :=
  { receivedCallback := .noop, handleID := hid, matchType := .ExactMatch,
    listenerStructTypeValid := true, listenerStructType := 1, channel := [0],
    priority := 0, targetObject := none }

def entryCancel (hid : Nat) (c i : Bool) : FGameplayMessageListenerData :=
  { receivedCallback := .cancelMessage c i, handleID := hid, matchType := .ExactMatch,
    listenerStructTypeValid := true, listenerStructType := 1, channel := [0],
    priority := 0, targetObject := none }

theorem cancel_interrupt_semantics_witness :
    ((BroadcastMessageInternal 1 stCancelHard [0] 1 none).2 = [1, 2]
        ∧ (BroadcastMessageInternal 1 stCancelHard [0] 1 none).1.broadcastResultCache.bInterrupted
            = true)
    ∧ ((BroadcastMessageInternal 1 stCancelSoft [0] 1 none).2 = [1, 2, 3]
        ∧ (BroadcastMessageInternal 1 stCancelSoft [0] 1 none).1.broadcastResultCache
            = { bCancelled := true, bInterrupted := false }) := by
  constructor
  · have h := (cancel_interrupt_semantics 1 stCancelHard [0] 1 none
      [entryNoop 1] [entryNoop 3] (entryCancel 2 true true) 3
      (by decide) (by decide) (by decide) (by decide)).1 (by decide)
    exact ⟨h.1.trans (by decide), h.2⟩
  · have h := (cancel_interrupt_semantics 1 stCancelSoft [0] 1 none
      [entryNoop 1] [entryNoop 3] (entryCancel 2 true false) 3
      (by decide) (by decide) (by decide) (by decide)).2 (by decide)
    exact ⟨h.1.trans (by decide), h.2⟩

/-- Non-strict variant of `priOrder` (used for the spatial router, where
one logical listener may lawfully appear as several equal copies of
itself in a cell). -/
def priOrderLe (pri : α → Int) (hid : α → Nat) (a b : α) : Prop :=
  pri a < pri b ∨ (pri a = pri b ∧ hid a ≤ hid b)

/-- Weak-order version of the tail-scan insert correctness, for an entry
whose id is at least every stored id. -/
theorem insert_preserves_priOrderLe (pri : α → Int) (hid : α → Nat) (l : List α) (e : α)
    (hsort : l.Pairwise (priOrderLe pri hid)) (hfresh : ∀ d ∈ l, hid d ≤ hid e) :
    (insertAtIdx l (findInsertIndex (pri e) pri l) e).Pairwise (priOrderLe pri hid) := by
  set p : α → Bool := fun d => decide (pri e < pri d) with hp
  set r : List α := l.reverse with hr
  set A : List α := (r.dropWhile p).reverse with hA
  set B : List α := (r.takeWhile p).reverse with hB
  have hLr : l = A ++ B := by
    rw [hA, hB, ← List.reverse_append, List.takeWhile_append_dropWhile, hr,
      List.reverse_reverse]
  have hBlen : B.length = (r.takeWhile p).length := by rw [hB, List.length_reverse]
  have hidx : findInsertIndex (pri e) pri l = A.length := by
    show l.length - (l.reverse.takeWhile (fun d => decide (pri e < pri d))).length = A.length
    rw [← hr, ← hp, ← hBlen]
    have : l.length = A.length + B.length := by rw [hLr, List.length_append]
    omega
  have hins : insertAtIdx l A.length e = A ++ e :: B := by
    unfold insertAtIdx
    rw [hLr, List.take_left, List.drop_left]
  rw [hidx, hins]
  rw [hLr] at hsort
  rcases List.pairwise_append.mp hsort with ⟨hpA, hpB, hAB⟩
  have hEb : ∀ b ∈ B, priOrderLe pri hid e b := by
    intro b hb
    have hmem : b ∈ r.takeWhile p := by rw [hB] at hb; exact List.mem_reverse.mp hb
    exact Or.inl (by simpa [hp] using List.mem_takeWhile_imp hmem)
  have hAe : ∀ a ∈ A, pri a ≤ pri e := by
    cases hd : r.dropWhile p with
    | nil =>
      intro a ha
      rw [hA, hd] at ha
      simp at ha
    | cons h0 t =>
      have hph0 : p h0 = false := dropWhile_head_false p r hd
      have hle0 : pri h0 ≤ pri e := by
        have : ¬ (pri e < pri h0) := by simpa [hp] using hph0
        omega
      intro a ha
      have hA' : A = t.reverse ++ [h0] := by rw [hA, hd, List.reverse_cons]
      rw [hA'] at ha
      rcases List.mem_append.mp ha with hme | hme
      · have hpA' := hpA
        rw [hA'] at hpA'
        rcases List.pairwise_append.mp hpA' with ⟨_, _, hcross⟩
        rcases hcross a hme h0 (List.mem_singleton.mpr rfl) with hlt | ⟨heq, _⟩
        · omega
        · omega
      · rw [List.mem_singleton.mp hme]
        exact hle0
  have hAe' : ∀ a ∈ A, priOrderLe pri hid a e := by
    intro a ha
    rcases lt_or_eq_of_le (hAe a ha) with hlt | heq
    · exact Or.inl hlt
    · exact Or.inr ⟨heq, hfresh a (by rw [hLr]; exact List.mem_append_left _ ha)⟩
  refine List.pairwise_append.mpr ⟨hpA, List.pairwise_cons.mpr ⟨hEb, hpB⟩, ?_⟩
  intro a ha b hb
  rcases List.mem_cons.mp hb with hbe | hbB
  · rw [hbe]; exact hAe' a ha
  · exact hAB a ha b hbB

/-- Well-formedness of the spatial grid map against an id bound: every
cell's list ordered by `priOrderLe`, all stored ids at most the bound. -/
def WMapInv (m : Int → Option FGridListenerList) (bound : Nat) : Prop :=
  ∀ g L, m g = some L →
    L.listeners.Pairwise (priOrderLe (fun d => d.priority) (fun d => d.handleID)) ∧
    ∀ d ∈ L.listeners, d.handleID ≤ bound

theorem WMapInv_mono {m : Int → Option FGridListenerList} {b b' : Nat}
    (h : WMapInv m b) (hb : b ≤ b') : WMapInv m b' := by
  intro g L hg
  rcases h g L hg with ⟨h1, h2⟩
  exact ⟨h1, fun d hd => Nat.le_trans (h2 d hd) hb⟩

theorem insertIntoGrid_preserves_WMapInv {m : Int → Option FGridListenerList} {bound : Nat}
    (gid : Int) (entry : FGameplayWorldMessageListenerData)
    (hm : WMapInv m bound) (he : entry.handleID = bound) :
    WMapInv (insertIntoGrid m gid entry) bound := by
  intro g L hg
  unfold insertIntoGrid at hg
  by_cases hgid : g = gid
  · rw [if_pos hgid] at hg
    have hold : ((m gid).getD {}).listeners.Pairwise
          (priOrderLe (fun d => d.priority) (fun d => d.handleID)) ∧
        ∀ d ∈ ((m gid).getD {}).listeners, d.handleID ≤ bound := by
      cases hmg : m gid with
      | none => simp [hmg]
      | some L0 => simpa [hmg] using hm gid L0 hmg
    cases hg
    constructor
    · exact insert_preserves_priOrderLe (fun d => d.priority) (fun d => d.handleID)
        ((m gid).getD {}).listeners entry hold.1
        (fun d hd => by show d.handleID ≤ entry.handleID; rw [he]; exact hold.2 d hd)
    · intro d hd
      rcases mem_insertAtIdx hd with hmem | hde
      · exact hold.2 d hmem
      · rw [hde, he]
  · rw [if_neg hgid] at hg
    exact hm g L hg

theorem foldl_insertIntoGrid_preserves_WMapInv (entry : FGameplayWorldMessageListenerData)
    (bound : Nat) (he : entry.handleID = bound) :
    ∀ (grids : List Int) (m : Int → Option FGridListenerList), WMapInv m bound →
      WMapInv (grids.foldl (fun m' gid => insertIntoGrid m' gid entry) m) bound := by
  intro grids
  induction grids with
  | nil => intro m hm; exact hm
  | cons g rest ih =>
    intro m hm
    exact ih _ (insertIntoGrid_preserves_WMapInv g entry hm he)

/-- One recorded `RegisterListenerInternal` call (spatial router). -/
structure WRegisterRequest where
  channel : Tag
  callback : Option (Bool × Bool)
  structType : Nat
  matchType : EGameplayMessageMatch
  priority : Int
  listenPosition : Vec
  listenRadius : ℚ

/-- Sequential application of spatial register calls. -/
def applyRegistersW (self : Nat) (st : WState) : List WRegisterRequest → WState
  | [] => st
  | r :: rs =>
    applyRegistersW self
      (RegisterListenerInternalW self st r.channel r.callback r.structType
        r.matchType r.priority r.listenPosition r.listenRadius).1 rs

/-- Spatial router invariant tying the grid map to the id counter. -/
def WInv (st : WState) : Prop := WMapInv st.gridListenerMap st.globalHandleID

theorem registerW_preserves_WInv (self : Nat) (st : WState) (r : WRegisterRequest)
    (hinv : WInv st) :
    WInv (RegisterListenerInternalW self st r.channel r.callback r.structType
      r.matchType r.priority r.listenPosition r.listenRadius).1 := by
  unfold WInv RegisterListenerInternalW
  simp only
  exact foldl_insertIntoGrid_preserves_WMapInv _ (st.globalHandleID + 1) rfl _
    st.gridListenerMap (WMapInv_mono hinv (Nat.le_succ _))

theorem applyRegistersW_preserves_WInv (self : Nat) (reqs : List WRegisterRequest)
    (st : WState) (hinv : WInv st) : WInv (applyRegistersW self st reqs) := by
  induction reqs generalizing st with
  | nil => exact hinv
  | cons r rs ih => exact ih _ (registerW_preserves_WInv self st r hinv)

/-- Concrete state for the priority-ordering example: four listeners on
type 1 registered with priorities 50, 10, 50, 0 in that order (handle ids
1, 2, 3, 4 in registration order). -/
def stPriorities : GState :=
  (RegisterListenerInternal 0
    (RegisterListenerInternal 0
      (RegisterListenerInternal 0
        (RegisterListenerInternal 0 emptyGState [0] .noop 1 .ExactMatch 50 none).1
        [0] .noop 1 .ExactMatch 10 none).1
      [0] .noop 1 .ExactMatch 50 none).1
    [0] .noop 1 .ExactMatch 0 none).1

/-- C1: after any sequence of Register calls with no unregistration, every
per-type listener list of the global router is ordered by ascending
priority, equal priorities in registration (handle allocation) order, and
likewise every grid-cell list of the spatial router (non-strictly, as a
cell holds value copies); hence broadcasting to four listeners registered
with priorities 50, 10, 50, 0 (handle ids 1, 2, 3, 4) invokes them in the
order 0, 10, 50 (first-registered), 50 (second-registered), that is ids
4, 2, 1, 3. -/
theorem priority_registration_ordering :
    (∀ (self : Nat) (reqs : List RegisterRequest) (t : Nat) (L : FChannelListenerList),
      (applyRegisters self emptyGState reqs).listenerMap t = some L →
      L.listeners.Pairwise (priOrder (fun d => d.priority) (fun d => d.handleID)))
    ∧ (∀ (self : Nat) (reqs : List WRegisterRequest) (g : Int) (L : FGridListenerList),
      (applyRegistersW self emptyWState reqs).gridListenerMap g = some L →
      L.listeners.Pairwise (priOrderLe (fun d => d.priority) (fun d => d.handleID)))
    ∧ ((stPriorities.listenerMap 1).getD {}).listeners.map
        (fun d => (d.priority, d.handleID)) = [(0, 4), (10, 2), (50, 1), (50, 3)]
    ∧ (BroadcastMessageInternal 1 stPriorities [0] 1 none).2 = [4, 2, 1, 3] := by
  refine ⟨?_, ?_, by decide, by decide⟩
  · intro self reqs t L hL
    exact (applyRegisters_preserves_GInv self reqs emptyGState emptyGState_GInv t L hL).1
  · intro self reqs g L hL
    have hinv : WInv emptyWState := by
      intro g' L' h
      simp [emptyWState] at h
    exact (applyRegistersW_preserves_WInv self reqs emptyWState hinv g L hL).1

theorem priority_registration_ordering_witness :
    ((applyRegisters 0 emptyGState
        [{ channel := [0], callback := .noop, structType := 1, matchType := .ExactMatch,
           priority := 5, targetObject := none },
         { channel := [0], callback := .noop, structType := 1, matchType := .ExactMatch,
           priority := 3, targetObject := none }]).listenerMap 1).isSome = true
    ∧ (∀ L, (applyRegisters 0 emptyGState
        [{ channel := [0], callback := .noop, structType := 1, matchType := .ExactMatch,
           priority := 5, targetObject := none },
         { channel := [0], callback := .noop, structType := 1, matchType := .ExactMatch,
           priority := 3, targetObject := none }]).listenerMap 1 = some L →
        L.listeners.Pairwise (priOrder (fun d => d.priority) (fun d => d.handleID))) := by
  exact ⟨by decide, fun L hL => (priority_registration_ordering).1 0 _ 1 L hL⟩

/-- Router state holding exactly one registered listener on channel `C`
with the given match rule (and no target affinity). -/
def registerSingle (self : Nat) (C : Tag) (ty : Nat) (mt : EGameplayMessageMatch)
    (pri : Int) : GState × FGameplayMessageListenerHandle :=
  RegisterListenerInternal self emptyGState C .noop ty mt pri none

/-- Listener entry created by `registerSingle`. -/
def entrySingle (C : Tag) (ty : Nat) (mt : EGameplayMessageMatch) (pri : Int) :
    FGameplayMessageListenerData :=
  { receivedCallback := .noop, handleID := 1, matchType := mt,
    listenerStructTypeValid := true, listenerStructType := ty, channel := C,
    priority := pri, targetObject := none }

theorem registerSingle_map (self : Nat) (C : Tag) (ty : Nat) (mt : EGameplayMessageMatch)
    (pri : Int) :
    (registerSingle self C ty mt pri).1.listenerMap ty
      = some { listeners := [entrySingle C ty mt pri], handleID := 1 } := by
  unfold registerSingle RegisterListenerInternal emptyGState entrySingle
  simp [findInsertIndex, insertAtIdx]

theorem broadcast_single (self : Nat) (C : Tag) (ty : Nat) (mt : EGameplayMessageMatch)
    (pri : Int) (ch : Tag) (fuel : Nat) :
    (BroadcastMessageInternal fuel (registerSingle self C ty mt pri).1 ch ty none).2
      = if tagMatches mt ch C then [1] else [] := by
  rw [broadcastMessageInternal_eq]
  unfold broadcastCore
  simp only [registerSingle_map]
  by_cases ht : tagMatches mt ch C = true
  · have hpass : passesFilters ch ty none (entrySingle C ty mt pri) = true := by
      simp [passesFilters, entrySingle, ht]
    rw [loop_cons_invoke _ ch ty none _ [] _ hpass]
    rw [if_neg (by simp [entrySingle, applyEffectWith])]
    simp [broadcastLoop, entrySingle, ht]
  · have hpass : passesFilters ch ty none (entrySingle C ty mt pri) = false := by
      simp [passesFilters, entrySingle]
      simpa using ht
    rw [loop_cons_skip _ ch ty none _ [] _ hpass]
    simp [broadcastLoop, ht]

/-- C8: a listener registered on channel `C` with ExactMatch is invoked by
a broadcast exactly when the broadcast channel equals `C`; with
PartialMatch exactly when the broadcast channel equals or is a descendant
of `C` (the listener's channel is a segment prefix of the broadcast
channel). -/
theorem tag_match_rules (self ty : Nat) (pri : Int) (C ch : Tag) (fuel : Nat) :
    ((registerSingle self C ty .ExactMatch pri).2.id ∈
        (BroadcastMessageInternal fuel (registerSingle self C ty .ExactMatch pri).1 ch ty none).2
      ↔ ch = C)
    ∧ ((registerSingle self C ty .PartialMatch pri).2.id ∈
        (BroadcastMessageInternal fuel (registerSingle self C ty .PartialMatch pri).1 ch ty none).2
      ↔ C.isPrefixOf ch = true) := by
  constructor
  · rw [show (registerSingle self C ty .ExactMatch pri).2.id = 1 from rfl]
    rw [broadcast_single self C ty .ExactMatch pri ch fuel]
    by_cases h : ch = C
    · simp [tagMatches, matchesTagExact, h]
    · simp [tagMatches, matchesTagExact, h]
  · rw [show (registerSingle self C ty .PartialMatch pri).2.id = 1 from rfl]
    rw [broadcast_single self C ty .PartialMatch pri ch fuel]
    by_cases h : C.isPrefixOf ch = true
    · simp [tagMatches, matchesTag, h]
    · simp [tagMatches, matchesTag, h]

/-- Listener entry with the given handle id and priority (and a
do-nothing callback), as created by the registrations of the concrete
scenarios below. -/
def entryPri (hid : Nat) (pri : Int) : FGameplayMessageListenerData :=
  { receivedCallback := .noop, handleID := hid, matchType := .ExactMatch,
    listenerStructTypeValid := true, listenerStructType := 1, channel := [0],
    priority := pri, targetObject := none }

/-- State with three listeners on type 1: priorities 0, 10, 50, handle
ids 1, 2, 3. -/
def stThree : GState :=
  (RegisterListenerInternal 0
    (RegisterListenerInternal 0
      (RegisterListenerInternal 0 emptyGState [0] .noop 1 .ExactMatch 0 none).1
      [0] .noop 1 .ExactMatch 10 none).1
    [0] .noop 1 .ExactMatch 50 none).1

/-- C5: code-bug evidence.  `UnregisterListenerInternal` removes the
matching entry with `RemoveAtSwap`, which moves the last entry into the
freed slot: removing the priority-0 head of the priority-sorted list
`[0, 10, 50]` leaves `[50, 10]`, which is no longer sorted ascending by
priority — contradicting both the spec sentence and the dispatch loop's
own assumption that the list stays priority-sorted. -/
theorem unregister_swap_breaks_order :
    (((UnregisterListenerInternal stThree 1 1).listenerMap 1).getD {}).listeners
        = [entryPri 3 50, entryPri 2 10]
    ∧ ¬ (((UnregisterListenerInternal stThree 1 1).listenerMap 1).getD {}).listeners.Pairwise
        (priOrderLe (fun d => d.priority) (fun d => d.handleID)) := by
  refine ⟨by decide, fun hpw => ?_⟩
  rw [show (((UnregisterListenerInternal stThree 1 1).listenerMap 1).getD {}).listeners
      = [entryPri 3 50, entryPri 2 10] from by decide] at hpw
  rcases List.pairwise_cons.mp hpw with ⟨h1, _⟩
  rcases h1 (entryPri 2 10) (by simp) with hlt | ⟨heq, _⟩
  · have hlt' : (50 : Int) < 10 := hlt
    omega
  · have heq' : (50 : Int) = 10 := heq
    omega

/-- C6: counterexample.  Handle ids are allocated from a per-type-list
counter, not a per-router one: on the same router, the first registration
for type 1 and the first registration for type 2 both receive handle
id 1; and after type 1's list is emptied and dropped, a re-registration
for type 1 receives handle id 1 again. -/
theorem handle_id_reuse :
    (RegisterListenerInternal 0 emptyGState [0] .noop 1 .ExactMatch 0 none).2.id = 1
    ∧ (RegisterListenerInternal 0
        (RegisterListenerInternal 0 emptyGState [0] .noop 1 .ExactMatch 0 none).1
        [0] .noop 2 .ExactMatch 0 none).2.id = 1
    ∧ (UnregisterListenerInternal
        (RegisterListenerInternal 0 emptyGState [0] .noop 1 .ExactMatch 0 none).1
        1 1).listenerMap 1 = none
    ∧ (RegisterListenerInternal 0
        (UnregisterListenerInternal
          (RegisterListenerInternal 0 emptyGState [0] .noop 1 .ExactMatch 0 none).1
          1 1)
        [0] .noop 1 .ExactMatch 0 none).2.id = 1 := by
  refine ⟨rfl, by decide, by decide, by decide⟩

/-- C6 amended: handle ids are unique and monotonically increasing per
message-type list, for as long as that list exists: under register-only
histories every type's stored ids are pairwise distinct, and a new
registration's id is strictly greater than every id currently stored in
that type's list. -/
theorem handle_ids_per_type_monotone :
    (∀ (self : Nat) (reqs : List RegisterRequest) (t : Nat) (L : FChannelListenerList),
      (applyRegisters self emptyGState reqs).listenerMap t = some L →
      (L.listeners.map (fun d => d.handleID)).Nodup)
    ∧ (∀ (self : Nat) (st : GState) (ch : Tag) (cb : CbEffect) (t : Nat)
        (mt : EGameplayMessageMatch) (pri : Int) (tg : Option Nat) (L : FChannelListenerList),
      GInv st → st.listenerMap t = some L →
      ∀ d ∈ L.listeners, d.handleID < (RegisterListenerInternal self st ch cb t mt pri tg).2.id) := by
  constructor
  · intro self reqs t L hL
    exact (applyRegisters_preserves_GInv self reqs emptyGState emptyGState_GInv t L hL).2.2
  · intro self st ch cb t mt pri tg L hinv hmap d hd
    have hb := (hinv t L hmap).2.1 d hd
    have hidv : (RegisterListenerInternal self st ch cb t mt pri tg).2.id
        = ((st.listenerMap t).getD {}).handleID + 1 := rfl
    rw [hidv, hmap, Option.getD_some]
    exact Nat.lt_succ_of_le hb

theorem handle_ids_per_type_monotone_witness :
    ((stThree.listenerMap 1).isSome = true)
    ∧ (∀ L, stThree.listenerMap 1 = some L →
        (L.listeners.map (fun d => d.handleID)).Nodup)
    ∧ (∀ L, stThree.listenerMap 1 = some L →
        ∀ d ∈ L.listeners,
          d.handleID < (RegisterListenerInternal 0 stThree [0] .noop 1 .ExactMatch 7 none).2.id) := by
  refine ⟨by decide, ?_, ?_⟩
  · intro L hL
    exact handle_ids_per_type_monotone.1 0
      [{ channel := [0], callback := .noop, structType := 1, matchType := .ExactMatch,
         priority := 0, targetObject := none },
       { channel := [0], callback := .noop, structType := 1, matchType := .ExactMatch,
         priority := 10, targetObject := none },
       { channel := [0], callback := .noop, structType := 1, matchType := .ExactMatch,
         priority := 50, targetObject := none }] 1 L hL
  · intro L hL
    exact handle_ids_per_type_monotone.2 0 stThree [0] .noop 1 .ExactMatch 7 none L
      (applyRegisters_preserves_GInv 0
        [{ channel := [0], callback := .noop, structType := 1, matchType := .ExactMatch,
           priority := 0, targetObject := none },
         { channel := [0], callback := .noop, structType := 1, matchType := .ExactMatch,
           priority := 10, targetObject := none },
         { channel := [0], callback := .noop, structType := 1, matchType := .ExactMatch,
           priority := 50, targetObject := none }] emptyGState emptyGState_GInv) hL

/-- State for the nested-broadcast scenario: type 1 has listener 1
(priority 0, callback performing a nested broadcast for type 2) and
listener 2 (priority 1, do-nothing); type 2 has one listener whose
callback calls `CancelMessage c i`. -/
def stNestedCI (c i : Bool) : GState :=
  (RegisterListenerInternal 0
    (RegisterListenerInternal 0
      (RegisterListenerInternal 0 emptyGState [0] (.nestedBroadcast [0] 2 none) 1
        .ExactMatch 0 none).1
      [0] .noop 1 .ExactMatch 1 none).1
    [0] (.cancelMessage c i) 2 .ExactMatch 0 none).1

/-- C7: counterexample.  The cancellation/interruption context is the
router's single shared `BroadcastResultCache`, not per-invocation: when
listener 1's callback performs a nested broadcast whose listener calls
`CancelMessage(false, true)`, the enclosing broadcast's interruption
check reads the flag and stops — listener 2 of the enclosing broadcast is
never invoked and the enclosing broadcast returns `bInterrupted = true`,
although no listener of the enclosing broadcast interrupted it. -/
theorem nested_broadcast_clobbers :
    (BroadcastMessageInternal 2 (stNestedCI false true) [0] 1 none).2 = [1]
    ∧ (BroadcastMessageInternal 2 (stNestedCI false true) [0] 1
        none).1.broadcastResultCache.bInterrupted = true := by
  exact ⟨by decide, by decide⟩

/-- C7 amended: the flags a nested broadcast leaves in the shared
per-router `BroadcastResultCache` persist into the enclosing broadcast:
the enclosing dispatch loop's interruption check and the result returned
to the enclosing sender are exactly the nested broadcast's final flags
(here: the enclosing broadcast returns `(c, i)` and dispatches its second
listener only when the nested broadcast left `bInterrupted` clear). -/
theorem shared_cache_nested_broadcast (c i : Bool) :
    (BroadcastMessageInternal 2 (stNestedCI c i) [0] 1 none).1.broadcastResultCache
        = { bCancelled := c, bInterrupted := i }
    ∧ (BroadcastMessageInternal 2 (stNestedCI c i) [0] 1 none).2
        = (if i then [1] else [1, 2]) := by
  cases c <;> cases i <;> exact ⟨by decide, by decide⟩

/-- C9: counterexample.  `UnregisterListener` asserts
`check(Handle.Subsystem == this)`: a valid handle issued by a different
router instance fails the assertion (aborting the process in checked
builds) instead of being the logged no-op the claim demands. -/
theorem cross_instance_unregister_asserts :
    UnregisterListener 0 emptyGState { subsystem := some 1, structType := 1, id := 1 }
      = GUnregisterOutcome.assertFail := rfl

/-- C9 amended: an invalid handle (id 0) passed to `UnregisterListener`
is a logged no-op; `UpdateRegisterListenerLocation` returns `false` and
leaves the router unchanged for an invalid handle, a handle of a
different router, or a handle id with no recorded spatial info; but a
valid handle of a different router passed to `UnregisterListener` fails
the `check(Handle.Subsystem == this)` assertion rather than
warn-and-return. -/
theorem invalid_handle_handling (self : Nat) (st : GState) (wst : WState)
    (h : FGameplayMessageListenerHandle) (wh : FGameplayWorldMessageListenerHandle)
    (p : Vec) (r : ℚ) :
    (h.id = 0 → UnregisterListener self st h = .ok st)
    ∧ (h.id ≠ 0 → h.subsystem ≠ some self → UnregisterListener self st h = .assertFail)
    ∧ (wh.id = 0 ∨ wh.subsystem ≠ some self →
        UpdateRegisterListenerLocation self wst wh p r = (false, wst))
    ∧ (wh.id ≠ 0 → wh.subsystem = some self → wst.handleToSpatialMap wh.id = none →
        UpdateRegisterListenerLocation self wst wh p r = (false, wst)) := by
  refine ⟨?_, ?_, ?_, ?_⟩
  · intro hz
    unfold UnregisterListener
    rw [if_neg (by simp [hz])]
  · intro hnz hns
    unfold UnregisterListener
    rw [if_pos hnz, if_neg hns]
  · intro hbad
    unfold UpdateRegisterListenerLocation
    rw [if_pos hbad]
  · intro hnz hs hsp
    unfold UpdateRegisterListenerLocation
    rw [if_neg (by simp [hnz, hs]), hsp]

theorem invalid_handle_handling_witness :
    (UnregisterListener 0 emptyGState { subsystem := some 0, structType := 1, id := 0 }
        = .ok emptyGState)
    ∧ (UnregisterListener 0 emptyGState { subsystem := some 1, structType := 1, id := 1 }
        = .assertFail)
    ∧ (UpdateRegisterListenerLocation 0 emptyWState { subsystem := none, structType := 1, id := 0 }
        { x := 0, y := 0, z := 0 } 1 = (false, emptyWState))
    ∧ (UpdateRegisterListenerLocation 0 emptyWState { subsystem := some 0, structType := 1, id := 5 }
        { x := 0, y := 0, z := 0 } 1 = (false, emptyWState)) := by
  refine ⟨?_, ?_, ?_, ?_⟩
  · exact (invalid_handle_handling 0 emptyGState emptyWState
      { subsystem := some 0, structType := 1, id := 0 }
      { subsystem := none, structType := 0, id := 0 } { x := 0, y := 0, z := 0 } 1).1 rfl
  · exact (invalid_handle_handling 0 emptyGState emptyWState
      { subsystem := some 1, structType := 1, id := 1 }
      { subsystem := none, structType := 0, id := 0 } { x := 0, y := 0, z := 0 } 1).2.1
      (by decide) (by decide)
  · exact (invalid_handle_handling 0 emptyGState emptyWState
      { subsystem := none, structType := 0, id := 0 }
      { subsystem := none, structType := 1, id := 0 } { x := 0, y := 0, z := 0 } 1).2.2.1
      (Or.inl rfl)
  · exact (invalid_handle_handling 0 emptyGState emptyWState
      { subsystem := none, structType := 0, id := 0 }
      { subsystem := some 0, structType := 1, id := 5 } { x := 0, y := 0, z := 0 } 1).2.2.2
      (by decide) rfl rfl

/-- When the predicate holds for at most one entry, `RemoveAtSwap` at the
index found by `IndexOfByPredicate` leaves no matching entry behind. -/
theorem removeAtSwap_no_match (p : α → Bool) :
    ∀ (l : List α) (i : Nat), List.findIdx? p l = some i → (l.filter p).length ≤ 1 →
      ∀ x ∈ removeAtSwap l i, p x = false := by
  intro l
  induction l with
  | nil =>
    intro i hf _ x hx
    simp [List.findIdx?] at hf
  | cons a t ih =>
    intro i hf hc x hx
    rw [List.findIdx?_cons] at hf
    by_cases hpa : p a = true
    · rw [if_pos hpa] at hf
      have hi : i = 0 := by cases hf; rfl
      subst hi
      have hft : ∀ y ∈ t, p y = false := by
        rw [List.filter_cons_of_pos hpa] at hc
        have hnil : t.filter p = [] := by
          have : (t.filter p).length = 0 := by simpa using hc
          exact List.length_eq_zero.mp this
        intro y hy
        have := List.filter_eq_nil_iff.mp hnil y hy
        simpa using this
      cases t with
      | nil => simp [removeAtSwap] at hx
      | cons b t' =>
        have hgl : (a :: b :: t').getLast? = some ((b :: t').getLast (by simp)) := by
          rw [List.getLast?_cons_cons, List.getLast?_eq_getLast]
        have hlmem : ((b :: t').getLast (by simp)) ∈ b :: t' := List.getLast_mem _
        rw [removeAtSwap, hgl] at hx
        simp only [List.set_cons_zero] at hx
        rw [List.dropLast_cons_of_ne_nil (by simp)] at hx
        rcases List.mem_cons.mp hx with hxe | hxm
        · rw [hxe]
          exact hft _ hlmem
        · exact hft x (List.dropLast_subset _ hxm)
    · rw [if_neg hpa] at hf
      rw [List.findIdx?_succ] at hf
      cases hj : List.findIdx? p t with
      | none =>
        rw [hj] at hf
        simp at hf
      | some j =>
        rw [hj] at hf
        have hij : i = j + 1 := by
          injection hf with h'
          have h2 : j + 1 = i := h'
          omega
        subst hij
        cases t with
        | nil => simp [List.findIdx?] at hj
        | cons b t' =>
          have hgl : (a :: b :: t').getLast? = some ((b :: t').getLast (by simp)) := by
            rw [List.getLast?_cons_cons, List.getLast?_eq_getLast]
          have hgl2 : (b :: t').getLast? = some ((b :: t').getLast (by simp)) :=
            List.getLast?_eq_getLast _ _
          rw [removeAtSwap, hgl] at hx
          dsimp only at hx
          rw [List.set_cons_succ] at hx
          rw [List.dropLast_cons_of_ne_nil (by
            intro hcon
            have := congrArg List.length hcon
            simp [List.length_set] at this)] at hx
          rcases List.mem_cons.mp hx with hxe | hxm
          · rw [hxe]
            simpa using hpa
          · have hrec : x ∈ removeAtSwap (b :: t') j := by
              rw [removeAtSwap, hgl2]
              exact hxm
            have hc' : ((b :: t').filter p).length ≤ 1 := by
              rw [List.filter_cons_of_neg (by simpa using hpa)] at hc
              exact hc
            exact ih j hj hc' x hrec

theorem unregisterInternal_removes (st : GState) (ty hid : Nat)
    (hcount : ∀ L, st.listenerMap ty = some L →
      (L.listeners.filter (fun d => decide (d.handleID = hid))).length ≤ 1) :
    ∀ L', (UnregisterListenerInternal st ty hid).listenerMap ty = some L' →
      ∀ d ∈ L'.listeners, d.handleID ≠ hid := by
  intro L' hL' d hd
  unfold UnregisterListenerInternal at hL'
  cases hm : st.listenerMap ty with
  | none =>
    rw [hm] at hL'
    simp only at hL'
    rw [hm] at hL'
    cases hL'
  | some L =>
    rw [hm] at hL'
    simp only at hL'
    cases hf : L.listeners.findIdx? (fun d => decide (d.handleID = hid)) with
    | none =>
      rw [hf] at hL'
      split at hL'
      · simp at hL'
      · simp at hL'
        have hall := List.findIdx?_eq_none_iff.mp hf
        have hdm : d ∈ L.listeners := by
          rw [← hL'] at hd
          exact hd
        have := hall d hdm
        simpa using this
    | some i =>
      rw [hf] at hL'
      split at hL'
      · simp at hL'
      · simp at hL'
        have hdm : d ∈ removeAtSwap L.listeners i := by
          rw [← hL'] at hd
          exact hd
        have := removeAtSwap_no_match (fun d => decide (d.handleID = hid))
          L.listeners i hf (hcount L hm) d hdm
        simpa using this

/-- C10: `Unregister()` on a listener handle is idempotent — the first
call removes the entry (when the handle refers to its issuing router) and
resets the handle to the invalid default, and any repeated call is a
no-op; a fresh default handle is invalid; after the unregistration the
type's list holds no entry with the handle's id, and no broadcast of that
type on the resulting state ever invokes the removed listener's id. -/
theorem broadcast_invoked_mem (fuel : Nat) (st : GState) (ch : Tag) (ty : Nat)
    (tg : Option Nat) (x : Nat)
    (hx : x ∈ (BroadcastMessageInternal fuel st ch ty tg).2) :
    ∃ L, st.listenerMap ty = some L ∧ ∃ d ∈ L.listeners, d.handleID = x := by
  rw [broadcastMessageInternal_eq] at hx
  unfold broadcastCore at hx
  dsimp only at hx
  cases hm : st.listenerMap ty with
  | none =>
    rw [hm] at hx
    simp at hx
  | some L =>
    rw [hm] at hx
    dsimp only at hx
    exact ⟨L, rfl, loop_invoked_mem _ ch ty tg L.listeners _ x hx⟩

theorem unregister_idempotent_no_reinvoke (st : GState)
    (h : FGameplayMessageListenerHandle) (sid : Nat)
    (hsub : h.subsystem = some sid) (hid0 : h.id ≠ 0)
    (hcount : ∀ L, st.listenerMap h.structType = some L →
      (L.listeners.filter (fun d => decide (d.handleID = h.id))).length ≤ 1) :
    (∀ (st' : GState) (h' : FGameplayMessageListenerHandle),
      HandleUnregister (HandleUnregister st' h').1 (HandleUnregister st' h').2
        = HandleUnregister st' h')
    ∧ (FGameplayMessageListenerHandle.isValid {} = false)
    ∧ ((HandleUnregister st h).2.isValid = false)
    ∧ ((HandleUnregister st h).1
        = UnregisterListenerInternal st h.structType h.id)
    ∧ (∀ L', (HandleUnregister st h).1.listenerMap h.structType = some L' →
        ∀ d ∈ L'.listeners, d.handleID ≠ h.id)
    ∧ (∀ (fuel : Nat) (ch : Tag) (tg : Option Nat),
        h.id ∉ (BroadcastMessageInternal fuel (HandleUnregister st h).1 ch h.structType tg).2) := by
  have hfirst : HandleUnregister st h
      = (UnregisterListenerInternal st h.structType h.id, {}) := by
    unfold HandleUnregister UnregisterListener
    simp [hsub, hid0]
  refine ⟨?_, rfl, ?_, ?_, ?_, ?_⟩
  · intro st' h'
    cases hs : h'.subsystem with
    | none =>
      have h1 : HandleUnregister st' h' = (st', h') := by
        unfold HandleUnregister
        simp [hs]
      rw [h1]
      exact h1
    | some sid' =>
      have hone : (HandleUnregister st' h').2 = ({} : FGameplayMessageListenerHandle) := by
        unfold HandleUnregister UnregisterListener
        by_cases hz : h'.id ≠ 0
        · simp [hs, hz]
        · simp [hs, hz]
      calc HandleUnregister (HandleUnregister st' h').1 (HandleUnregister st' h').2
          = HandleUnregister (HandleUnregister st' h').1 {} := by rw [hone]
        _ = ((HandleUnregister st' h').1, ({} : FGameplayMessageListenerHandle)) := rfl
        _ = HandleUnregister st' h' := by
            refine Prod.ext rfl ?_
            exact hone.symm
  · rw [hfirst]
    rfl
  · rw [hfirst]
  · rw [hfirst]
    exact unregisterInternal_removes st h.structType h.id hcount
  · intro fuel ch tg hmem
    rw [hfirst] at hmem
    rcases broadcast_invoked_mem fuel _ ch h.structType tg h.id hmem with ⟨L', hm2, d, hdm, hde⟩
    exact (unregisterInternal_removes st h.structType h.id hcount L' hm2 d hdm) hde

/-- State with two listeners on type 1 (ids 1 and 2), used to witness the
unregister-idempotence claim with the handle of listener 1. -/
def stTwo : GState :=
  (RegisterListenerInternal 0
    (RegisterListenerInternal 0 emptyGState [0] .noop 1 .ExactMatch 0 none).1
    [0] .noop 1 .ExactMatch 5 none).1

theorem unregister_idempotent_no_reinvoke_witness :
    ((HandleUnregister stTwo { subsystem := some 0, structType := 1, id := 1 }).2.isValid
        = false)
    ∧ (1 ∉ (BroadcastMessageInternal 1
        (HandleUnregister stTwo { subsystem := some 0, structType := 1, id := 1 }).1
        [0] 1 none).2) := by
  have h := unregister_idempotent_no_reinvoke stTwo
    { subsystem := some 0, structType := 1, id := 1 } 0 rfl (by decide)
    (fun L hL => by
      rw [show stTwo.listenerMap 1
          = some (⟨[entryPri 1 0, entryPri 2 5], 2⟩ : FChannelListenerList) from by decide] at hL
      cases hL
      decide)
  exact ⟨h.2.2.1, h.2.2.2.2.2 1 [0] none⟩

/-! Geometry of the spatial grid scan. -/

theorem mem_intRange {lo hi x : Int} : x ∈ intRange lo hi ↔ lo ≤ x ∧ x ≤ hi := by
  unfold intRange
  constructor
  · intro hx
    rcases List.mem_map.mp hx with ⟨i, hir, hxe⟩
    have hilt : i < (hi + 1 - lo).toNat := List.mem_range.mp hir
    rw [← hxe]
    omega
  · rintro ⟨h1, h2⟩
    exact List.mem_map.mpr ⟨(x - lo).toNat, List.mem_range.mpr (by omega), by omega⟩

/-- Clamping to an interval containing `q` moves no further from `v` than
`q` is. -/
theorem clampQ_sq_le (v lo hi q : ℚ) (h1 : lo ≤ q) (h2 : q ≤ hi) :
    (v - clampQ v lo hi) ^ 2 ≤ (v - q) ^ 2 := by
  unfold clampQ
  split_ifs with ha hb
  · nlinarith
  · simpa using sq_nonneg (v - q)
  · nlinarith

/-- Core coverage fact: any point within (3-D) distance `r` of `center`
lies in a cell accepted by the bounding-box scan of `GetGridsInRadius`:
the cell id of `q` is in the returned list. -/
theorem gridID_mem_gridsInRadius (c q : Vec) (r : ℚ) (hr : 0 ≤ r)
    (hd : DistSquared c q ≤ r * r) :
    GetGridID q ∈ GetGridsInRadius c r := by
  have hS : (0 : ℚ) < GRID_SIZE := by norm_num [GRID_SIZE]
  unfold DistSquared at hd
  have hx2 : (c.x - q.x) ^ 2 ≤ r ^ 2 := by
    nlinarith [sq_nonneg (c.y - q.y), sq_nonneg (c.z - q.z)]
  have hy2 : (c.y - q.y) ^ 2 ≤ r ^ 2 := by
    nlinarith [sq_nonneg (c.x - q.x), sq_nonneg (c.z - q.z)]
  have hxl : c.x - r ≤ q.x := by nlinarith [sq_nonneg (c.x - q.x + r)]
  have hxu : q.x ≤ c.x + r := by nlinarith [sq_nonneg (c.x - q.x - r)]
  have hyl : c.y - r ≤ q.y := by nlinarith [sq_nonneg (c.y - q.y + r)]
  have hyu : q.y ≤ c.y + r := by nlinarith [sq_nonneg (c.y - q.y - r)]
  set gx := ⌊q.x / GRID_SIZE⌋ with hgx
  set gy := ⌊q.y / GRID_SIZE⌋ with hgy
  have hgx1 : ⌊(c.x - r) / GRID_SIZE⌋ ≤ gx :=
    Int.floor_le_floor ((div_le_div_right hS).mpr hxl)
  have hgx2 : gx ≤ ⌊(c.x + r) / GRID_SIZE⌋ :=
    Int.floor_le_floor ((div_le_div_right hS).mpr hxu)
  have hgy1 : ⌊(c.y - r) / GRID_SIZE⌋ ≤ gy :=
    Int.floor_le_floor ((div_le_div_right hS).mpr hyl)
  have hgy2 : gy ≤ ⌊(c.y + r) / GRID_SIZE⌋ :=
    Int.floor_le_floor ((div_le_div_right hS).mpr hyu)
  have hq1 : (gx : ℚ) * GRID_SIZE ≤ q.x := by
    have hfl : (gx : ℚ) ≤ q.x / GRID_SIZE := Int.floor_le (q.x / GRID_SIZE)
    calc (gx : ℚ) * GRID_SIZE ≤ q.x / GRID_SIZE * GRID_SIZE :=
          mul_le_mul_of_nonneg_right hfl (le_of_lt hS)
      _ = q.x := by rw [div_mul_cancel₀ _ (ne_of_gt hS)]
  have hq2 : q.x < ((gx : ℚ) + 1) * GRID_SIZE := by
    have hfl : q.x / GRID_SIZE < (gx : ℚ) + 1 := Int.lt_floor_add_one (q.x / GRID_SIZE)
    calc q.x = q.x / GRID_SIZE * GRID_SIZE := by
          rw [div_mul_cancel₀ _ (ne_of_gt hS)]
      _ < ((gx : ℚ) + 1) * GRID_SIZE := by
          exact mul_lt_mul_of_pos_right hfl hS
  have hq3 : (gy : ℚ) * GRID_SIZE ≤ q.y := by
    have hfl : (gy : ℚ) ≤ q.y / GRID_SIZE := Int.floor_le (q.y / GRID_SIZE)
    calc (gy : ℚ) * GRID_SIZE ≤ q.y / GRID_SIZE * GRID_SIZE :=
          mul_le_mul_of_nonneg_right hfl (le_of_lt hS)
      _ = q.y := by rw [div_mul_cancel₀ _ (ne_of_gt hS)]
  have hq4 : q.y < ((gy : ℚ) + 1) * GRID_SIZE := by
    have hfl : q.y / GRID_SIZE < (gy : ℚ) + 1 := Int.lt_floor_add_one (q.y / GRID_SIZE)
    calc q.y = q.y / GRID_SIZE * GRID_SIZE := by
          rw [div_mul_cancel₀ _ (ne_of_gt hS)]
      _ < ((gy : ℚ) + 1) * GRID_SIZE := mul_lt_mul_of_pos_right hfl hS
  have hcx := clampQ_sq_le c.x ((gx : ℚ) * GRID_SIZE) (((gx : ℚ) + 1) * GRID_SIZE) q.x
    hq1 (le_of_lt hq2)
  have hcy := clampQ_sq_le c.y ((gy : ℚ) * GRID_SIZE) (((gy : ℚ) + 1) * GRID_SIZE) q.y
    hq3 (le_of_lt hq4)
  have hclose : DistSquared c
      { x := clampQ c.x ((gx : ℚ) * GRID_SIZE) (((gx : ℚ) + 1) * GRID_SIZE),
        y := clampQ c.y ((gy : ℚ) * GRID_SIZE) (((gy : ℚ) + 1) * GRID_SIZE),
        z := c.z } ≤ r * r := by
    unfold DistSquared
    dsimp only
    nlinarith [hcx, hcy]
  show packGrid ⌊q.x / GRID_SIZE⌋ ⌊q.y / GRID_SIZE⌋ ∈ GetGridsInRadius c r
  unfold GetGridsInRadius
  refine List.mem_flatMap.mpr ⟨gx, mem_intRange.mpr ⟨hgx1, hgx2⟩, ?_⟩
  refine List.mem_filterMap.mpr ⟨gy, mem_intRange.mpr ⟨hgy1, hgy2⟩, ?_⟩
  rw [if_pos hclose]

/-- Entry `e` with its stored position and radius replaced, as produced by
the in-place mutation pass and the insertion pass of
`UpdateRegisterListenerLocation`. -/
def movedEntry (e : FGameplayWorldMessageListenerData) (newP : Vec) (newR : ℚ) :
    FGameplayWorldMessageListenerData :=
  { e with listenPosition := newP, listenRadius := newR }

/-- Characterization threaded through the round-trip proof: the grid map
holds exactly the cells of `G`, each with precisely the one entry `e`. -/
def cellsAre (m : Int → Option FGridListenerList) (e : FGameplayWorldMessageListenerData)
    (G : List Int) : Prop :=
  (∀ g ∈ G, m g = some { listeners := [e], handleID := 0 }) ∧
  (∀ g, g ∉ G → m g = none)

theorem insertIntoGrid_other (m : Int → Option FGridListenerList) (gid : Int)
    (e : FGameplayWorldMessageListenerData) (g : Int) (hg : g ≠ gid) :
    insertIntoGrid m gid e g = m g := by
  unfold insertIntoGrid
  rw [if_neg hg]

theorem removeFromGrid_other (m : Int → Option FGridListenerList) (gid : Int)
    (hid : Nat) (g : Int) (hg : g ≠ gid) :
    removeFromGrid m gid hid g = m g := by
  unfold removeFromGrid
  cases m gid with
  | none => rfl
  | some gl =>
    dsimp only
    split
    · dsimp only
      rw [if_neg hg]
    · dsimp only
      rw [if_neg hg]

theorem mutateInGrid_other (m : Int → Option FGridListenerList) (gid : Int) (hid : Nat)
    (newP : Vec) (newR : ℚ) (g : Int) (hg : g ≠ gid) :
    mutateInGrid m gid hid newP newR g = m g := by
  unfold mutateInGrid
  cases m gid with
  | none => rfl
  | some gl =>
    dsimp only
    cases gl.listeners.findIdx? (fun d => decide (d.handleID = hid)) with
    | none => rfl
    | some i =>
      dsimp only
      cases gl.listeners[i]? with
      | none => rfl
      | some d =>
        dsimp only
        rw [if_neg hg]


theorem fold_insertIntoGrid_nodup (e : FGameplayWorldMessageListenerData) :
    ∀ (grids : List Int) (m : Int → Option FGridListenerList),
      grids.Nodup → (∀ g ∈ grids, m g = none) →
      (∀ g ∈ grids,
          grids.foldl (fun m' gid => insertIntoGrid m' gid e) m g
            = some { listeners := [e], handleID := 0 })
      ∧ (∀ g, g ∉ grids →
          grids.foldl (fun m' gid => insertIntoGrid m' gid e) m g = m g) := by
  intro grids
  induction grids with
  | nil =>
    intro m _ _
    exact ⟨by simp, fun g _ => rfl⟩
  | cons gid rest ih =>
    intro m hnd hnone
    have hgid_notin : gid ∉ rest := (List.nodup_cons.mp hnd).1
    have hnd' : rest.Nodup := (List.nodup_cons.mp hnd).2
    have hm1gid : insertIntoGrid m gid e gid = some { listeners := [e], handleID := 0 } := by
      unfold insertIntoGrid
      rw [hnone gid (List.mem_cons_self _ _)]
      simp [findInsertIndex, insertAtIdx]
    have hnone' : ∀ g ∈ rest, insertIntoGrid m gid e g = none := by
      intro g hgr
      rw [insertIntoGrid_other m gid e g (fun he => hgid_notin (he ▸ hgr))]
      exact hnone g (List.mem_cons_of_mem _ hgr)
    rcases ih (insertIntoGrid m gid e) hnd' hnone' with ⟨ih1, ih2⟩
    constructor
    · intro g hg
      rw [List.foldl_cons]
      rcases List.mem_cons.mp hg with hge | hgr
      · subst hge
        rw [ih2 g hgid_notin, hm1gid]
      · exact ih1 g hgr
    · intro g hg
      have hg1 : g ≠ gid := fun he => hg (he ▸ List.mem_cons_self _ _)
      have hg2 : g ∉ rest := fun hr => hg (List.mem_cons_of_mem _ hr)
      rw [List.foldl_cons, ih2 g hg2, insertIntoGrid_other m gid e g hg1]

theorem fold_removeFromGrid_spec (hid : Nat) (e : FGameplayWorldMessageListenerData)
    (he : e.handleID = hid) :
    ∀ (grids : List Int) (m : Int → Option FGridListenerList),
      (∀ g ∈ grids, m g = none ∨ m g = some { listeners := [e], handleID := 0 }) →
      (∀ g ∈ grids,
          grids.foldl (fun m' gid => removeFromGrid m' gid hid) m g = none)
      ∧ (∀ g, g ∉ grids →
          grids.foldl (fun m' gid => removeFromGrid m' gid hid) m g = m g) := by
  intro grids
  induction grids with
  | nil =>
    intro m _
    exact ⟨by simp, fun g _ => rfl⟩
  | cons gid rest ih =>
    intro m hpre
    have hm1gid : removeFromGrid m gid hid gid = none := by
      rcases hpre gid (List.mem_cons_self _ _) with hn | hs
      · unfold removeFromGrid
        rw [hn]
        exact hn
      · unfold removeFromGrid
        rw [hs]
        dsimp only
        rw [if_pos (by simp [he]), if_pos rfl]
    have hpre' : ∀ g ∈ rest, removeFromGrid m gid hid g = none
        ∨ removeFromGrid m gid hid g = some { listeners := [e], handleID := 0 } := by
      intro g hgr
      by_cases hge : g = gid
      · subst hge
        exact Or.inl hm1gid
      · rw [removeFromGrid_other m gid hid g hge]
        exact hpre g (List.mem_cons_of_mem _ hgr)
    rcases ih (removeFromGrid m gid hid) hpre' with ⟨ih1, ih2⟩
    constructor
    · intro g hg
      rw [List.foldl_cons]
      rcases List.mem_cons.mp hg with hge | hgr
      · subst hge
        by_cases hgr2 : g ∈ rest
        · exact ih1 g hgr2
        · rw [ih2 g hgr2, hm1gid]
      · exact ih1 g hgr
    · intro g hg
      have hg1 : g ≠ gid := fun he' => hg (he' ▸ List.mem_cons_self _ _)
      have hg2 : g ∉ rest := fun hr => hg (List.mem_cons_of_mem _ hr)
      rw [List.foldl_cons, ih2 g hg2, removeFromGrid_other m gid hid g hg1]

theorem fold_mutateInGrid_spec (hid : Nat) (e : FGameplayWorldMessageListenerData)
    (newP : Vec) (newR : ℚ) (he : e.handleID = hid) :
    ∀ (grids : List Int) (m : Int → Option FGridListenerList),
      (∀ g ∈ grids, m g = some { listeners := [e], handleID := 0 }
        ∨ m g = some { listeners := [movedEntry e newP newR], handleID := 0 }) →
      (∀ g ∈ grids,
          grids.foldl (fun m' gid => mutateInGrid m' gid hid newP newR) m g
            = some { listeners := [movedEntry e newP newR], handleID := 0 })
      ∧ (∀ g, g ∉ grids →
          grids.foldl (fun m' gid => mutateInGrid m' gid hid newP newR) m g = m g) := by
  intro grids
  induction grids with
  | nil =>
    intro m _
    exact ⟨by simp, fun g _ => rfl⟩
  | cons gid rest ih =>
    intro m hpre
    have hm1gid : mutateInGrid m gid hid newP newR gid
        = some { listeners := [movedEntry e newP newR], handleID := 0 } := by
      rcases hpre gid (List.mem_cons_self _ _) with hs | hs
      · unfold mutateInGrid
        rw [hs]
        simp [List.findIdx?_cons, he, movedEntry]
      · unfold mutateInGrid
        rw [hs]
        simp [List.findIdx?_cons, he, movedEntry]
    have hpre' : ∀ g ∈ rest,
        mutateInGrid m gid hid newP newR g = some { listeners := [e], handleID := 0 }
        ∨ mutateInGrid m gid hid newP newR g
            = some { listeners := [movedEntry e newP newR], handleID := 0 } := by
      intro g hgr
      by_cases hge : g = gid
      · subst hge
        exact Or.inr hm1gid
      · rw [mutateInGrid_other m gid hid newP newR g hge]
        exact hpre g (List.mem_cons_of_mem _ hgr)
    rcases ih (mutateInGrid m gid hid newP newR) hpre' with ⟨ih1, ih2⟩
    constructor
    · intro g hg
      rw [List.foldl_cons]
      rcases List.mem_cons.mp hg with hge | hgr
      · subst hge
        by_cases hgr2 : g ∈ rest
        · exact ih1 g hgr2
        · rw [ih2 g hgr2, hm1gid]
      · exact ih1 g hgr
    · intro g hg
      have hg1 : g ≠ gid := fun he' => hg (he' ▸ List.mem_cons_self _ _)
      have hg2 : g ∉ rest := fun hr => hg (List.mem_cons_of_mem _ hr)
      rw [List.foldl_cons, ih2 g hg2, mutateInGrid_other m gid hid newP newR g hg1]

theorem relevantGridsFor_ne_nil (P : Vec) (R : ℚ) : relevantGridsFor P R ≠ [] := by
  unfold relevantGridsFor
  by_cases hemp : (GetGridsInRadius P R).isEmpty
  · rw [if_pos hemp]
    simp
  · rw [if_neg hemp]
    intro hc
    exact hemp (by rw [hc]; rfl)

theorem relevantGridsFor_nodup (P : Vec) (R : ℚ) (hnd : (GetGridsInRadius P R).Nodup) :
    (relevantGridsFor P R).Nodup := by
  unfold relevantGridsFor
  by_cases hemp : (GetGridsInRadius P R).isEmpty
  · rw [if_pos hemp]
    simp
  · rw [if_neg hemp]
    exact hnd

theorem gridID_mem_relevant (P q : Vec) (R : ℚ) (hr : 0 ≤ R)
    (hd : DistSquared P q ≤ R * R) : GetGridID q ∈ relevantGridsFor P R := by
  have hmem := gridID_mem_gridsInRadius P q R hr hd
  unfold relevantGridsFor
  by_cases hemp : (GetGridsInRadius P R).isEmpty
  · exfalso
    rw [List.isEmpty_iff] at hemp
    rw [hemp] at hmem
    simp at hmem
  · rw [if_neg hemp]
    exact hmem

/-- Listener entry created by the first registration on a fresh spatial
router. -/
def entryW (ch : Tag) (cb : Option (Bool × Bool)) (ty : Nat) (mt : EGameplayMessageMatch)
    (pri : Int) (P : Vec) (R : ℚ) : FGameplayWorldMessageListenerData :=
  { receivedCallback := cb, handleID := 1, matchType := mt, listenerStructTypeValid := true,
    listenerStructType := ty, channel := ch, priority := pri,
    listenPosition := P, listenRadius := R }

theorem registerW_from_empty (self : Nat) (ch : Tag) (cb : Option (Bool × Bool)) (ty : Nat)
    (mt : EGameplayMessageMatch) (pri : Int) (P : Vec) (R : ℚ)
    (hnd : (GetGridsInRadius P R).Nodup) :
    cellsAre (RegisterListenerInternalW self emptyWState ch cb ty mt pri P R).1.gridListenerMap
        (entryW ch cb ty mt pri P R) (relevantGridsFor P R)
    ∧ (RegisterListenerInternalW self emptyWState ch cb ty mt pri P R).1.handleToSpatialMap 1
        = some { listenPosition := P, listenRadius := R }
    ∧ (RegisterListenerInternalW self emptyWState ch cb ty mt pri P R).2
        = { subsystem := some self, structType := ty, id := 1 } := by
  have hfold := fold_insertIntoGrid_nodup (entryW ch cb ty mt pri P R) (relevantGridsFor P R)
    (fun _ => none) (relevantGridsFor_nodup P R hnd) (fun _ _ => rfl)
  exact ⟨⟨fun g hg => hfold.1 g hg, fun g hg => hfold.2 g hg⟩, rfl, rfl⟩

theorem findListenerData_cellsAre (m : Int → Option FGridListenerList)
    (e : FGameplayWorldMessageListenerData) (G : List Int) (hid : Nat)
    (hcells : cellsAre m e G) (hhid : e.handleID = hid) (hne : G ≠ []) :
    findListenerData m G hid = some e := by
  cases G with
  | nil => exact absurd rfl hne
  | cons g rest =>
    unfold findListenerData
    rw [hcells.1 g (List.mem_cons_self _ _)]
    dsimp only
    simp [List.find?_cons, hhid]

theorem updateW_cells (self : Nat) (st : WState) (h : FGameplayWorldMessageListenerHandle)
    (e : FGameplayWorldMessageListenerData) (P : Vec) (R : ℚ) (newP : Vec) (newR : ℚ)
    (hcells : cellsAre st.gridListenerMap e (relevantGridsFor P R))
    (hsp : st.handleToSpatialMap h.id = some { listenPosition := P, listenRadius := R })
    (hhid : e.handleID = h.id) (hid0 : ¬ (h.id = 0)) (hsub : h.subsystem = some self)
    (hnewR : 0 ≤ newR) (hnd' : (GetGridsInRadius newP newR).Nodup) :
    (UpdateRegisterListenerLocation self st h newP newR).1 = true
    ∧ cellsAre (UpdateRegisterListenerLocation self st h newP newR).2.gridListenerMap
        (movedEntry e newP newR) (relevantGridsFor newP newR) := by
  have hfind : findListenerData st.gridListenerMap (relevantGridsFor P R) h.id = some e :=
    findListenerData_cellsAre _ _ _ _ hcells hhid (relevantGridsFor_ne_nil P R)
  unfold UpdateRegisterListenerLocation
  rw [if_neg (by simp [hid0, hsub])]
  rw [hsp]
  dsimp only
  rw [if_pos hnewR, hfind]
  dsimp only
  set G := relevantGridsFor P R with hG
  set G' := relevantGridsFor newP newR with hG'
  set removeSet := G.filter (fun g => ¬ G'.contains g) with hRS
  set addSet := G'.filter (fun g => ¬ G.contains g) with hAS
  set keepSet := G.filter (fun g => G'.contains g) with hKS
  have hremPre : ∀ g ∈ removeSet, st.gridListenerMap g = none
      ∨ st.gridListenerMap g = some { listeners := [e], handleID := 0 } := by
    intro g hg
    rcases List.mem_filter.mp hg with ⟨hgG, _⟩
    exact Or.inr (hcells.1 g hgG)
  have hrem := fold_removeFromGrid_spec h.id e hhid removeSet st.gridListenerMap hremPre
  set m1 := removeSet.foldl (fun m' gid => removeFromGrid m' gid h.id) st.gridListenerMap
    with hm1
  have haddPre : ∀ g ∈ addSet, m1 g = none := by
    intro g hg
    rcases List.mem_filter.mp hg with ⟨hgG', hgnG⟩
    have hgnG2 : g ∉ G := by simpa using hgnG
    have hgnRS : g ∉ removeSet := by
      intro hc
      exact hgnG2 (List.mem_filter.mp hc).1
    rw [hrem.2 g hgnRS]
    exact hcells.2 g hgnG2
  have haddNodup : addSet.Nodup := List.Nodup.filter _ (relevantGridsFor_nodup newP newR hnd')
  have hadd := fold_insertIntoGrid_nodup (movedEntry e newP newR) addSet m1 haddNodup haddPre
  have hme : (⟨e.receivedCallback, e.handleID, e.matchType, e.listenerStructTypeValid,
      e.listenerStructType, e.channel, e.priority, newP, newR⟩
      : FGameplayWorldMessageListenerData) = movedEntry e newP newR := rfl
  rw [hme]
  set m2 := addSet.foldl (fun m' gid => insertIntoGrid m' gid (movedEntry e newP newR)) m1
    with hm2
  have hkeepPre : ∀ g ∈ keepSet, m2 g = some { listeners := [e], handleID := 0 }
      ∨ m2 g = some { listeners := [movedEntry e newP newR], handleID := 0 } := by
    intro g hg
    rcases List.mem_filter.mp hg with ⟨hgG, hgG'⟩
    have hgG'2 : g ∈ G' := by simpa using hgG'
    have hgnAS : g ∉ addSet := by
      intro hc
      have := (List.mem_filter.mp hc).2
      simp at this
      exact this hgG
    have hgnRS : g ∉ removeSet := by
      intro hc
      have := (List.mem_filter.mp hc).2
      simp at this
      exact this hgG'2
    rw [hadd.2 g hgnAS, hrem.2 g hgnRS]
    exact Or.inl (hcells.1 g hgG)
  have hmut := fold_mutateInGrid_spec h.id e newP newR hhid keepSet m2 hkeepPre
  refine ⟨rfl, ?_, ?_⟩
  · intro g hg
    by_cases hgG : g ∈ G
    · have hgKS : g ∈ keepSet := List.mem_filter.mpr ⟨hgG, by simpa using hg⟩
      exact hmut.1 g hgKS
    · have hgAS : g ∈ addSet := List.mem_filter.mpr ⟨hg, by simpa using hgG⟩
      have hgnKS : g ∉ keepSet := by
        intro hc
        exact hgG (List.mem_filter.mp hc).1
      rw [hmut.2 g hgnKS]
      exact hadd.1 g hgAS
  · intro g hg
    have hgnKS : g ∉ keepSet := by
      intro hc
      have := (List.mem_filter.mp hc).2
      simp at this
      exact hg this
    have hgnAS : g ∉ addSet := by
      intro hc
      exact hg (List.mem_filter.mp hc).1
    rw [hmut.2 g hgnKS, hadd.2 g hgnAS]
    by_cases hgG : g ∈ G
    · have hgRS : g ∈ removeSet := List.mem_filter.mpr ⟨hgG, by simpa using hg⟩
      exact hrem.1 g hgRS
    · rw [hrem.2 g (fun hc => hgG (List.mem_filter.mp hc).1)]
      exact hcells.2 g hgG

theorem distSquared_comm (a b : Vec) : DistSquared a b = DistSquared b a := by
  unfold DistSquared
  ring

/-- A spatial broadcast consults only the cell of its position: when every
cell of `G` holds exactly the singleton list `[e]` and every other cell is
empty, dispatch invokes `e` exactly when its cell is in `G` and the squared
distance from the broadcast position to `e.listenPosition` is within
`e.listenRadius²`. -/
theorem broadcastW_singleton (st : WState) (bch : Tag) (ty : Nat) (Q : Vec)
    (e : FGameplayWorldMessageListenerData) (G : List Int)
    (hcells : cellsAre st.gridListenerMap e G)
    (hvalid : e.listenerStructTypeValid = true)
    (hty : e.listenerStructType = ty)
    (htag : tagMatches e.matchType bch e.channel = true)
    (hcb : e.receivedCallback = none) :
    (BroadcastMessageInternalW st bch ty Q).2 =
      if GetGridID Q ∈ G ∧ DistSquared Q e.listenPosition ≤ e.listenRadius * e.listenRadius
      then [e.handleID] else [] := by
  unfold BroadcastMessageInternalW
  dsimp only
  by_cases hmem : GetGridID Q ∈ G
  · rw [hcells.1 _ hmem]
    dsimp only
    unfold broadcastLoopW
    rw [if_neg (by simp [hvalid]), if_neg (not_not_intro hty.symm)]
    by_cases hdist : DistSquared Q e.listenPosition ≤ e.listenRadius * e.listenRadius
    · have hc : GetGridID Q ∈ G
          ∧ DistSquared Q e.listenPosition ≤ e.listenRadius * e.listenRadius :=
        ⟨hmem, hdist⟩
      rw [if_neg (not_lt.mpr hdist), if_neg (not_not_intro htag), hcb, if_pos hc]
      rfl
    · rw [if_pos (not_le.mp hdist), if_neg (fun hc => hdist hc.2)]
      rfl
  · rw [hcells.2 _ hmem, if_neg (fun hc => hmem hc.1)]

/-- C2: on a fresh spatial router, registering a listener with a matching
channel/type at `P` with radius `R ≥ 0` and broadcasting at any `Q` invokes
the listener exactly when `|P-Q|² ≤ R²` — dispatch reads only the cell
containing `Q`, but registration placed the listener in every cell its
circle overlaps; after `UpdateRegisterListenerLocation` succeeds (returning
`true`), the same holds at `Q` for the new position and radius. -/
theorem spatial_coverage_round_trip (self : Nat) (C bch : Tag) (ty : Nat)
    (mt : EGameplayMessageMatch) (pri : Int) (P Q : Vec) (R : ℚ)
    (newP : Vec) (newR : ℚ)
    (hR : 0 ≤ R) (hnewR : 0 ≤ newR)
    (hnd : (GetGridsInRadius P R).Nodup) (hnd' : (GetGridsInRadius newP newR).Nodup)
    (htag : tagMatches mt bch C = true) :
    ((BroadcastMessageInternalW
        (RegisterListenerInternalW self emptyWState C none ty mt pri P R).1 bch ty Q).2
      = [(RegisterListenerInternalW self emptyWState C none ty mt pri P R).2.id]
      ↔ DistSquared Q P ≤ R * R)
    ∧ (UpdateRegisterListenerLocation self
        (RegisterListenerInternalW self emptyWState C none ty mt pri P R).1
        (RegisterListenerInternalW self emptyWState C none ty mt pri P R).2 newP newR).1
        = true
    ∧ ((BroadcastMessageInternalW
        (UpdateRegisterListenerLocation self
          (RegisterListenerInternalW self emptyWState C none ty mt pri P R).1
          (RegisterListenerInternalW self emptyWState C none ty mt pri P R).2 newP newR).2
        bch ty Q).2
      = [(RegisterListenerInternalW self emptyWState C none ty mt pri P R).2.id]
      ↔ DistSquared Q newP ≤ newR * newR) := by
  have hreg := registerW_from_empty self C none ty mt pri P R hnd
  set st0 := (RegisterListenerInternalW self emptyWState C none ty mt pri P R).1 with hst0
  have hb1 : (BroadcastMessageInternalW st0 bch ty Q).2 =
      if GetGridID Q ∈ relevantGridsFor P R ∧ DistSquared Q P ≤ R * R
      then [1] else [] :=
    broadcastW_singleton st0 bch ty Q (entryW C none ty mt pri P R)
      (relevantGridsFor P R) hreg.1 rfl rfl htag rfl
  have hsp1 : st0.handleToSpatialMap
      (RegisterListenerInternalW self emptyWState C none ty mt pri P R).2.id
      = some { listenPosition := P, listenRadius := R } := hreg.2.1
  have hupd := updateW_cells self st0
    (RegisterListenerInternalW self emptyWState C none ty mt pri P R).2
    (entryW C none ty mt pri P R) P R newP newR hreg.1 hsp1 rfl
    (fun hc => Nat.one_ne_zero hc) rfl hnewR hnd'
  have hb2 : (BroadcastMessageInternalW
      (UpdateRegisterListenerLocation self st0
        (RegisterListenerInternalW self emptyWState C none ty mt pri P R).2 newP newR).2
      bch ty Q).2 =
      if GetGridID Q ∈ relevantGridsFor newP newR ∧ DistSquared Q newP ≤ newR * newR
      then [1] else [] :=
    broadcastW_singleton _ bch ty Q (movedEntry (entryW C none ty mt pri P R) newP newR)
      (relevantGridsFor newP newR) hupd.2 rfl rfl htag rfl
  refine ⟨?_, hupd.1, ?_⟩
  · rw [hb1]
    constructor
    · intro h
      by_cases hc : GetGridID Q ∈ relevantGridsFor P R ∧ DistSquared Q P ≤ R * R
      · exact hc.2
      · rw [if_neg hc] at h
        exact absurd h (by simp)
    · intro hdq
      have hmem : GetGridID Q ∈ relevantGridsFor P R :=
        gridID_mem_relevant P Q R hR (by rw [distSquared_comm]; exact hdq)
      rw [if_pos ⟨hmem, hdq⟩]
      rfl
  · rw [hb2]
    constructor
    · intro h
      by_cases hc : GetGridID Q ∈ relevantGridsFor newP newR ∧ DistSquared Q newP ≤ newR * newR
      · exact hc.2
      · rw [if_neg hc] at h
        exact absurd h (by simp)
    · intro hdq
      have hmem : GetGridID Q ∈ relevantGridsFor newP newR :=
        gridID_mem_relevant newP Q newR hnewR (by rw [distSquared_comm]; exact hdq)
      rw [if_pos ⟨hmem, hdq⟩]
      rfl

theorem spatial_coverage_round_trip_witness :
    (0 : ℚ) ≤ 200 ∧
    (((BroadcastMessageInternalW
        (RegisterListenerInternalW 0 emptyWState [1] none 0 .ExactMatch 0
          ⟨0, 0, 0⟩ 200).1 [1] 0 ⟨100, 0, 0⟩).2
      = [(RegisterListenerInternalW 0 emptyWState [1] none 0 .ExactMatch 0
          ⟨0, 0, 0⟩ 200).2.id]
      ↔ DistSquared ⟨100, 0, 0⟩ ⟨0, 0, 0⟩ ≤ 200 * 200)
    ∧ (UpdateRegisterListenerLocation 0
        (RegisterListenerInternalW 0 emptyWState [1] none 0 .ExactMatch 0
          ⟨0, 0, 0⟩ 200).1
        (RegisterListenerInternalW 0 emptyWState [1] none 0 .ExactMatch 0
          ⟨0, 0, 0⟩ 200).2 ⟨4000, 0, 0⟩ 50).1 = true
    ∧ ((BroadcastMessageInternalW
        (UpdateRegisterListenerLocation 0
          (RegisterListenerInternalW 0 emptyWState [1] none 0 .ExactMatch 0
            ⟨0, 0, 0⟩ 200).1
          (RegisterListenerInternalW 0 emptyWState [1] none 0 .ExactMatch 0
            ⟨0, 0, 0⟩ 200).2 ⟨4000, 0, 0⟩ 50).2
        [1] 0 ⟨100, 0, 0⟩).2
      = [(RegisterListenerInternalW 0 emptyWState [1] none 0 .ExactMatch 0
          ⟨0, 0, 0⟩ 200).2.id]
      ↔ DistSquared ⟨100, 0, 0⟩ ⟨4000, 0, 0⟩ ≤ 50 * 50)) :=
  ⟨by norm_num,
   spatial_coverage_round_trip 0 [1] [1] 0 .ExactMatch 0 ⟨0, 0, 0⟩ ⟨100, 0, 0⟩ 200
     ⟨4000, 0, 0⟩ 50 (by norm_num) (by norm_num)
     (by
       have h : GetGridsInRadius ⟨0, 0, 0⟩ 200 = [-1, -4294967296, 4294967295, 0] := by
         norm_num [GetGridsInRadius, intRange, GRID_SIZE, clampQ, DistSquared, packGrid,
           List.range_succ, List.range_zero, List.flatMap_cons, List.flatMap_nil,
           List.map_cons, List.map_nil, List.filterMap_cons, List.filterMap_nil,
           Function.comp, show Int.toNat 2 = 2 from rfl]
       rw [h]
       decide)
     (by
       have h : GetGridsInRadius ⟨4000, 0, 0⟩ 50 = [12884901887, 8589934592] := by
         norm_num [GetGridsInRadius, intRange, GRID_SIZE, clampQ, DistSquared, packGrid,
           List.range_succ, List.range_zero, List.flatMap_cons, List.flatMap_nil,
           List.map_cons, List.map_nil, List.filterMap_cons, List.filterMap_nil,
           Function.comp, show Int.toNat 2 = 2 from rfl, show Int.toNat 1 = 1 from rfl]
       rw [h]
       decide)
     rfl⟩

end GameplayMsg
